import Mathlib

/-!
Normal estimation for point clouds (`src/Core/EstimateNormals.cpp`).

A shallow embedding of `ComputeNormal` and of the two `EstimateNormals`
overloads, over exact rational arithmetic.

Modelling conventions.

* A `double` is an exact rational (`ℚ`); rounding, overflow and NaN are outside
  the model.  `v.norm() == 0.0` is modelled as `v.squaredNorm = 0`, which is the
  same test over exact arithmetic (the norm is the square root of the squared
  norm).
* `std::vector<T>` is `List T`.  A read `v[j]` outside the vector has no defined
  behaviour in the source; the model returns `none` for it.
* The neighbour search (`KDTreeFlann`) and the eigen-solver
  (`Eigen::SelfAdjointEigenSolver`) are external collaborators and appear as
  function parameters.
* A fixed-size Eigen object declared without an initialiser has indeterminate
  coefficients.  Where the source reads such coefficients the value read is an
  explicit parameter of the model.
-/

namespace three

/-! ## Data model -/

/-- `Eigen::Vector3d` with exact coefficients. -/
structure Vector3d where
  x : ℚ
  y : ℚ
  z : ℚ
deriving DecidableEq, Repr

namespace Vector3d

/-- `Eigen::Vector3d::Zero()`. -/
def Zero : Vector3d := ⟨0, 0, 0⟩

/-- Coefficient access `v(a)` for `a = 0, 1, 2`. -/
def coeff (v : Vector3d) (a : Fin 3) : ℚ :=
  match a with
  | 0 => v.x
  | 1 => v.y
  | 2 => v.z

/-- `v.dot(w)`. -/
def dot (v w : Vector3d) : ℚ := v.x * w.x + v.y * w.y + v.z * w.z

/-- `v.squaredNorm()`, the square of `v.norm()`. -/
def squaredNorm (v : Vector3d) : ℚ := v.x * v.x + v.y * v.y + v.z * v.z

/-- The effect of `v *= -1.0`. -/
def neg (v : Vector3d) : Vector3d := ⟨-1 * v.x, -1 * v.y, -1 * v.z⟩

/-- Componentwise sum, used to translate a cloud. -/
def add (v w : Vector3d) : Vector3d := ⟨v.x + w.x, v.y + w.y, v.z + w.z⟩

end Vector3d

/-- `Eigen::Matrix3d`; field `mab` is the coefficient `(a, b)`. -/
structure Matrix3d where
  m00 : ℚ
  m01 : ℚ
  m02 : ℚ
  m10 : ℚ
  m11 : ℚ
  m12 : ℚ
  m20 : ℚ
  m21 : ℚ
  m22 : ℚ
deriving DecidableEq, Repr

namespace Matrix3d

/-- Coefficient access `M(a, b)`. -/
def coeff (M : Matrix3d) (a b : Fin 3) : ℚ :=
  match a, b with
  | 0, 0 => M.m00
  | 0, 1 => M.m01
  | 0, 2 => M.m02
  | 1, 0 => M.m10
  | 1, 1 => M.m11
  | 1, 2 => M.m12
  | 2, 0 => M.m20
  | 2, 1 => M.m21
  | 2, 2 => M.m22

/-- Matrix-vector product `M * v`. -/
def mulVec (M : Matrix3d) (v : Vector3d) : Vector3d :=
  ⟨M.m00 * v.x + M.m01 * v.y + M.m02 * v.z,
   M.m10 * v.x + M.m11 * v.y + M.m12 * v.z,
   M.m20 * v.x + M.m21 * v.y + M.m22 * v.z⟩

/-- The quadratic form `vᵀ M v`. -/
def quadForm (M : Matrix3d) (v : Vector3d) : ℚ := v.dot (M.mulVec v)

end Matrix3d

/-- `Eigen::Matrix<double, 9, 1>`: the nine accumulators of `ComputeNormal`. -/
structure Cumulants where
  c0 : ℚ
  c1 : ℚ
  c2 : ℚ
  c3 : ℚ
  c4 : ℚ
  c5 : ℚ
  c6 : ℚ
  c7 : ℚ
  c8 : ℚ
deriving DecidableEq, Repr

/-- The accumulator vector whose nine coefficients are all zero. -/
def Cumulants.Zero : Cumulants := ⟨0, 0, 0, 0, 0, 0, 0, 0, 0⟩

/-- The point cloud: `points_` and `normals_`. -/
structure PointCloud where
  points_ : List Vector3d
  normals_ : List Vector3d
deriving DecidableEq, Repr

/-- Modelled from the spec: `PointCloud::HasNormals` is declared in
`PointCloud.h`, which is not among the sources.  By the data model of the spec
a cloud has normals when it has points and a normal sequence of the same
length. -/
def PointCloud.HasNormals (cloud : PointCloud) : Bool :=
  decide (0 < cloud.points_.length) && decide (cloud.normals_.length = cloud.points_.length)

/-- `std::vector::resize(n)`: keep the first `n` elements, pad with `fill` up to
length `n`.  The padding value of a `Vector3d` is indeterminate in the source,
hence a parameter. -/
def resize (v : List Vector3d) (n : Nat) (fill : Vector3d) : List Vector3d :=
  v.take n ++ List.replicate (n - v.length) fill

/-- The read `v[j]` for a signed index: defined only for `0 ≤ j < v.size()`. -/
def at? (v : List Vector3d) (j : Int) : Option Vector3d :=
  if 0 ≤ j then v[j.toNat]? else none

/-! ## `ComputeNormal` -/

/-- One iteration of the accumulation loop (source lines 46-55). -/
def accumulate (cumulants : Cumulants) (point : Vector3d) : Cumulants :=
  { c0 := cumulants.c0 + point.x
    c1 := cumulants.c1 + point.y
    c2 := cumulants.c2 + point.z
    c3 := cumulants.c3 + point.x * point.x
    c4 := cumulants.c4 + point.x * point.y
    c5 := cumulants.c5 + point.x * point.z
    c6 := cumulants.c6 + point.y * point.y
    c7 := cumulants.c7 + point.y * point.z
    c8 := cumulants.c8 + point.z * point.z }

/-- The accumulation loop over `indices` (source lines 45-56), started from the
accumulator content `cumulants`. -/
def accumulateAll (points : List Vector3d) : List Int → Cumulants → Option Cumulants
  | [], cumulants => some cumulants
  | j :: js, cumulants =>
    match at? points j with
    | none => none
    | some point => accumulateAll points js (accumulate cumulants point)

/-- `cumulants /= d` (source line 57). -/
def Cumulants.divide (c : Cumulants) (d : ℚ) : Cumulants :=
  ⟨c.c0 / d, c.c1 / d, c.c2 / d, c.c3 / d, c.c4 / d, c.c5 / d, c.c6 / d, c.c7 / d, c.c8 / d⟩

/-- The nine assignments to `covariance` (source lines 58-66). -/
def covarianceOf (cumulants : Cumulants) : Matrix3d :=
  let c00 := cumulants.c3 - cumulants.c0 * cumulants.c0
  let c11 := cumulants.c6 - cumulants.c1 * cumulants.c1
  let c22 := cumulants.c8 - cumulants.c2 * cumulants.c2
  let c01 := cumulants.c4 - cumulants.c0 * cumulants.c1
  let c02 := cumulants.c5 - cumulants.c0 * cumulants.c2
  let c12 := cumulants.c7 - cumulants.c1 * cumulants.c2
  { m00 := c00, m11 := c11, m22 := c22
    m01 := c01, m10 := c01
    m02 := c02, m20 := c02
    m12 := c12, m21 := c12 }

/-- The matrix that `ComputeNormal` passes to `solver.compute` for a non-empty
index list (source lines 43-66).  `cumulants0` is the content of the local
`cumulants` when the loop starts: the declaration on line 44 has no
initialiser, so this content is indeterminate. -/
def covarianceMatrix (cumulants0 : Cumulants) (cloud : PointCloud) (indices : List Int) :
    Option Matrix3d :=
  (accumulateAll cloud.points_ indices cumulants0).map
    (fun cumulants => covarianceOf (cumulants.divide (indices.length : ℚ)))

/-- `ComputeNormal` (source lines 37-71).  `eigenvectorsCol0 M` stands for
`solver.compute(M, ComputeEigenvectors); solver.eigenvectors().col(0)`. -/
def ComputeNormal (eigenvectorsCol0 : Matrix3d → Vector3d) (cumulants0 : Cumulants)
    (cloud : PointCloud) (indices : List Int) : Option Vector3d :=
  if indices.length = 0 then
    some Vector3d.Zero
  else
    (covarianceMatrix cumulants0 cloud indices).map eigenvectorsCol0

/-! ## The collaborators -/

/-- The two external collaborators of a run.

`Search points query search_param` is the index list that
`kdtree.Search(query, search_param, indices, distance2)` leaves in `indices`,
for the tree built by `kdtree.SetGeometry(cloud)`; per the specification the
tree is an index over the point positions `cloud.points_` only.  The squared
distances are never read by the source and are left out.

`eigenvectorsCol0 M` is `solver.eigenvectors().col(0)` after
`solver.compute(M, Eigen::ComputeEigenvectors)`. -/
structure Collaborators (P : Type) where
  Search : List Vector3d → Vector3d → P → List Int
  eigenvectorsCol0 : Matrix3d → Vector3d

/-- The indeterminate values a run reads.

`cumulants0 i` is the content of the uninitialised local `cumulants` (source
line 44) in the call of `ComputeNormal` made for point `i`; `fill` is the value
of the slots appended by `normals_.resize`. -/
structure Indeterminate where
  cumulants0 : Nat → Cumulants
  fill : Vector3d

/-! ## `EstimateNormals` -/

/-- The counting loop `for (size_t i = i0; i < i0 + k; i++) body`: `k` is the
number of iterations left and `i` the current index.  The bound of the source
loops is `cloud.points_.size()`, which no loop body changes. -/
def forLoop (body : PointCloud → Nat → Option PointCloud) :
    Nat → Nat → PointCloud → Option PointCloud
  | 0, _, cloud => some cloud
  | k + 1, i, cloud =>
    match body cloud i with
    | none => none
    | some cloud1 => forLoop body k (i + 1) cloud1

/-- The assignment `cloud.normals_[i] = normal`. -/
def writeNormal (cloud : PointCloud) (i : Nat) (normal : Vector3d) : Option PointCloud :=
  if i < cloud.normals_.length then
    some { cloud with normals_ := cloud.normals_.set i normal }
  else
    none

/-- The test `normal.norm() == 0.0`. -/
def normIsZero (normal : Vector3d) : Bool := decide (normal.squaredNorm = 0)

/-- Loop body of the first overload (source lines 88-100). -/
def bodyA {P : Type} (K : Collaborators P) (cumulants0 : Cumulants) (search_param : P)
    (has_normal : Bool) (cloud : PointCloud) (i : Nat) : Option PointCloud := do
  let query ← cloud.points_[i]?
  let indices := K.Search cloud.points_ query search_param
  let normal ← ComputeNormal K.eigenvectorsCol0 cumulants0 cloud indices
  let normal ←
    if normIsZero normal then
      if has_normal then cloud.normals_[i]? else some ⟨0, 0, 1⟩
    else
      some normal
  let normal ←
    if has_normal then
      (cloud.normals_[i]?).map (fun old => if normal.dot old < 0 then normal.neg else normal)
    else
      some normal
  writeNormal cloud i normal

/-- The first overload, `EstimateNormals(cloud, search_param)` ("Mode A",
source lines 75-103): the returned flag and the cloud after the call. -/
def EstimateNormals {P : Type} (K : Collaborators P) (U : Indeterminate)
    (cloud : PointCloud) (search_param : P) : Option (Bool × PointCloud) :=
  let has_normal := cloud.HasNormals
  let cloud :=
    if cloud.HasNormals = false then
      { cloud with normals_ := resize cloud.normals_ cloud.points_.length U.fill }
    else
      cloud
  (forLoop (fun c i => bodyA K (U.cumulants0 i) search_param has_normal c i)
      cloud.points_.length 0 cloud).map (fun c => (true, c))

/-- Loop body of the second overload (source lines 118-125). -/
def bodyB {P : Type} (K : Collaborators P) (cumulants0 : Cumulants)
    (orientation_reference : Vector3d) (search_param : P)
    (cloud : PointCloud) (i : Nat) : Option PointCloud := do
  let query ← cloud.points_[i]?
  let indices := K.Search cloud.points_ query search_param
  let normal ← ComputeNormal K.eigenvectorsCol0 cumulants0 cloud indices
  let normal :=
    if normIsZero normal then
      orientation_reference
    else if normal.dot orientation_reference < 0 then
      normal.neg
    else
      normal
  writeNormal cloud i normal

/-- The second overload,
`EstimateNormals(cloud, orientation_reference, search_param)` ("Mode B", source
lines 105-128): the returned flag and the cloud after the call. -/
def EstimateNormalsRef {P : Type} (K : Collaborators P) (U : Indeterminate)
    (cloud : PointCloud) (orientation_reference : Vector3d) (search_param : P) :
    Option (Bool × PointCloud) :=
  let cloud :=
    if cloud.HasNormals = false then
      { cloud with normals_ := resize cloud.normals_ cloud.points_.length U.fill }
    else
      cloud
  (forLoop (fun c i => bodyB K (U.cumulants0 i) orientation_reference search_param c i)
      cloud.points_.length 0 cloud).map (fun c => (true, c))

/-! ## Auxiliary definitions used in the statements -/

/-- The value the second overload writes for the candidate `normal` (source
lines 120-125). -/
def resolveRef (orientation_reference normal : Vector3d) : Vector3d :=
  if normIsZero normal then
    orientation_reference
  else if normal.dot orientation_reference < 0 then
    normal.neg
  else
    normal

/-- The value the first overload writes for the candidate `normal` when the
cloud had normals on entry and `old` is the normal stored at the index (source
lines 90-100 with `has_normal` true). -/
def resolvePrior (old normal : Vector3d) : Vector3d :=
  let normal1 := if normIsZero normal then old else normal
  if normal1.dot old < 0 then normal1.neg else normal1

/-- The value the first overload writes for the candidate `normal` when the
cloud had no normals on entry (source lines 90-100 with `has_normal` false). -/
def resolveNoPrior (normal : Vector3d) : Vector3d :=
  if normIsZero normal then ⟨0, 0, 1⟩ else normal

/-- The candidate normal of point `i`: the value `ComputeNormal` returns in
iteration `i` of either loop, as a function of the point positions. -/
def candidate {P : Type} (K : Collaborators P) (cumulants0 : Cumulants) (search_param : P)
    (points : List Vector3d) (i : Nat) : Option Vector3d :=
  match points[i]? with
  | none => none
  | some query =>
    ComputeNormal K.eigenvectorsCol0 cumulants0 ⟨points, []⟩ (K.Search points query search_param)

/-- The search returns only indices of points of the cloud. -/
def SearchInRange {P : Type} (K : Collaborators P) (search_param : P)
    (points : List Vector3d) : Prop :=
  ∀ query, ∀ j ∈ K.Search points query search_param, 0 ≤ j ∧ j < (points.length : Int)

/-- The neighbour points: the points of the cloud at the listed indices. -/
def neighborPoints (points : List Vector3d) (indices : List Int) : List Vector3d :=
  indices.filterMap (fun j => at? points j)

/-- The sum of `f p` over the points `p` of `l`. -/
def sumOver (f : Vector3d → ℚ) (l : List Vector3d) : ℚ := (l.map f).sum

/-- The covariance entry `(a, b)` in the words of the specification:
`(1/n) Σ pᵢ[a] pᵢ[b] - ((1/n) Σ pᵢ[a]) ((1/n) Σ pᵢ[b])`, the sums taken over the
neighbour points and `n` the number of neighbour indices. -/
def specCovariance (points : List Vector3d) (indices : List Int) (a b : Fin 3) : ℚ :=
  let nb := neighborPoints points indices
  let n : ℚ := (indices.length : ℚ)
  (1 / n) * sumOver (fun p => p.coeff a * p.coeff b) nb
    - ((1 / n) * sumOver (fun p => p.coeff a) nb) * ((1 / n) * sumOver (fun p => p.coeff b) nb)

/-- The accumulator content after adding the first and second moments of the
points of `l` to `c0`. -/
def addMoments (c0 : Cumulants) (l : List Vector3d) : Cumulants :=
  { c0 := c0.c0 + sumOver (fun p => p.x) l
    c1 := c0.c1 + sumOver (fun p => p.y) l
    c2 := c0.c2 + sumOver (fun p => p.z) l
    c3 := c0.c3 + sumOver (fun p => p.x * p.x) l
    c4 := c0.c4 + sumOver (fun p => p.x * p.y) l
    c5 := c0.c5 + sumOver (fun p => p.x * p.z) l
    c6 := c0.c6 + sumOver (fun p => p.y * p.y) l
    c7 := c0.c7 + sumOver (fun p => p.y * p.z) l
    c8 := c0.c8 + sumOver (fun p => p.z * p.z) l }

/-- The product of the vector `v` by the scalar `a`. -/
def Vector3d.scale (v : Vector3d) (a : ℚ) : Vector3d := ⟨a * v.x, a * v.y, a * v.z⟩

/-- The contract of the eigen-solver in the words of the specification
(eigenvalues ascending, eigenvectors orthonormal), for the column the source
reads: `v` has unit length and is an eigenvector of `M` for an eigenvalue that
no eigenvalue of `M` is below. -/
def IsLeastUnitEigenvector (M : Matrix3d) (v : Vector3d) : Prop :=
  v.squaredNorm = 1 ∧
  ∃ ev : ℚ, M.mulVec v = v.scale ev ∧
    ∀ (w : Vector3d) (mu : ℚ), w ≠ Vector3d.Zero → M.mulVec w = w.scale mu → ev ≤ mu

/-- The index list `0, 1, ..., points.size() - 1`: every point of the cloud. -/
def allIndices (points : List Vector3d) : List Int :=
  (List.range points.length).map Int.ofNat

/-- The centroid of the neighbour points, coordinate `a`: `(1/n) Σ pᵢ[a]`. -/
def centroid (points : List Vector3d) (indices : List Int) (a : Fin 3) : ℚ :=
  (1 / (indices.length : ℚ)) * sumOver (fun p => p.coeff a) (neighborPoints points indices)

/-- The covariance entry `(a, b)` in the two-pass, mean-subtracted formulation
of the specification: `(1/n) Σ (pᵢ[a] - mean[a]) (pᵢ[b] - mean[b])`. -/
def twoPassCovariance (points : List Vector3d) (indices : List Int) (a b : Fin 3) : ℚ :=
  (1 / (indices.length : ℚ)) *
    sumOver (fun p => (p.coeff a - centroid points indices a)
      * (p.coeff b - centroid points indices b)) (neighborPoints points indices)

/-- The cloud positions moved by the offset `t`. -/
def translate (t : Vector3d) (points : List Vector3d) : List Vector3d :=
  points.map (fun p => p.add t)

/-- The normal of point `i` in the snapshot formulation of the specification:
the candidate of the point, resolved against entry `i` of `snapshot`, the copy
of the normal array taken before the pass (fallback to it for a zero
candidate, then sign matching with it), or against nothing when the cloud had
no normals (fallback `(0, 0, 1)`). -/
def snapshotNormal {P : Type} (K : Collaborators P) (U : Indeterminate) (search_param : P)
    (points snapshot : List Vector3d) (has_normal : Bool) (i : Nat) : Option Vector3d :=
  match candidate K (U.cumulants0 i) search_param points i with
  | none => none
  | some n =>
    if has_normal then
      (snapshot[i]?).map (fun old => resolvePrior old n)
    else
      some (resolveNoPrior n)

/-- The separate output array of the snapshot formulation: the normals of the
points `i, i + 1, ..., i + k - 1`. -/
def snapshotNormals {P : Type} (K : Collaborators P) (U : Indeterminate) (search_param : P)
    (points snapshot : List Vector3d) (has_normal : Bool) :
    Nat → Nat → Option (List Vector3d)
  | 0, _ => some []
  | k + 1, i =>
    match snapshotNormal K U search_param points snapshot has_normal i with
    | none => none
    | some normal =>
      (snapshotNormals K U search_param points snapshot has_normal k (i + 1)).map
        (fun rest => normal :: rest)

/-- The first overload in the snapshot formulation of the specification: copy
the prior normal array before the pass, compute every normal from the copy,
and store the results in a separate array that replaces the normals. -/
def EstimateNormalsSnapshot {P : Type} (K : Collaborators P) (U : Indeterminate)
    (cloud : PointCloud) (search_param : P) : Option (Bool × PointCloud) :=
  let has_normal := cloud.HasNormals
  let snapshot := cloud.normals_
  (snapshotNormals K U search_param cloud.points_ snapshot has_normal
      cloud.points_.length 0).map (fun normals => (true, ⟨cloud.points_, normals⟩))

/-- The same search with a solver that returns the opposite vector: the other
sign choice for every eigenvector. -/
def flipSolver {P : Type} (K : Collaborators P) : Collaborators P :=
  ⟨K.Search, fun M => (K.eigenvectorsCol0 M).neg⟩

/-! ## Concrete inputs used to instantiate the theorems -/

/-- A search that finds no neighbour for any query, and a solver that returns
the unit vector `(0, 0, 1)`. -/
def isolatedSearch : Collaborators Unit :=
  ⟨fun _ _ _ => [], fun _ => ⟨0, 0, 1⟩⟩

/-- A search that returns every point of the cloud, and a solver that returns
the unit vector `(0, 1, 0)`. -/
def allPointsSearch : Collaborators Unit :=
  ⟨fun points _ _ => allIndices points, fun _ => ⟨0, 1, 0⟩⟩

/-- A search that returns the single index `0`, and a solver that returns the
unit vector `(1, 0, 0)`, the first column of the identity. -/
def singleNeighbourSearch : Collaborators Unit :=
  ⟨fun _ _ _ => [0], fun _ => ⟨1, 0, 0⟩⟩

/-- Three points on the x axis, without normals. -/
def collinearCloud : PointCloud := ⟨[⟨0, 0, 0⟩, ⟨1, 0, 0⟩, ⟨2, 0, 0⟩], []⟩

/-- Two points on the x axis, without normals. -/
def segmentCloud : PointCloud := ⟨[⟨1, 0, 0⟩, ⟨-1, 0, 0⟩], []⟩

/-- A search that returns every point of the cloud, and a solver that returns
the unit vector `(0, 0, -1)`. -/
def downwardSearch : Collaborators Unit :=
  ⟨fun points _ _ => allIndices points, fun _ => ⟨0, 0, -1⟩⟩

/-- Four points in the plane `z = 0`, not on one line, without normals. -/
def squareCloud : PointCloud := ⟨[⟨1, 0, 0⟩, ⟨-1, 0, 0⟩, ⟨0, 1, 0⟩, ⟨0, -1, 0⟩], []⟩

/-- Indeterminate values that all happen to be zero. -/
def zeroIndeterminate : Indeterminate := ⟨fun _ => Cumulants.Zero, Vector3d.Zero⟩

/-- A cloud of one point, without normals. -/
def onePointCloud : PointCloud := ⟨[⟨3, 4, 5⟩], []⟩

/-- A cloud of two points with a normal at each. -/
def twoPointCloud : PointCloud := ⟨[⟨1, 0, 0⟩, ⟨0, 1, 0⟩], [⟨0, -1, 0⟩, ⟨1, 0, 0⟩]⟩

/-- A cloud of one point that enters with two normals. -/
def mismatchedCloud : PointCloud := ⟨[⟨3, 4, 5⟩], [⟨1, 0, 0⟩, ⟨0, 1, 0⟩]⟩

/-- A cloud without points that enters with one normal. -/
def pointlessCloud : PointCloud := ⟨[], [⟨1, 0, 0⟩]⟩

/-! ## Basic lemmas -/

theorem at?_isSome (v : List Vector3d) (j : Int) (h0 : 0 ≤ j) (h1 : j < (v.length : Int)) :
    ∃ p, at? v j = some p := by
  have hlt : j.toNat < v.length := by omega
  exact ⟨v[j.toNat], by simp [at?, h0, List.getElem?_eq_getElem hlt]⟩

theorem accumulateAll_isSome (points : List Vector3d) (indices : List Int)
    (h : ∀ j ∈ indices, 0 ≤ j ∧ j < (points.length : Int)) (c0 : Cumulants) :
    ∃ c, accumulateAll points indices c0 = some c := by
  induction indices generalizing c0 with
  | nil => exact ⟨c0, rfl⟩
  | cons j js ih =>
    obtain ⟨p, hp⟩ := at?_isSome points j (h j (by simp)).1 (h j (by simp)).2
    obtain ⟨c, hc⟩ := ih (fun k hk => h k (by simp [hk])) (accumulate c0 p)
    exact ⟨c, by simp [accumulateAll, hp, hc]⟩

theorem ComputeNormal_isSome (solver : Matrix3d → Vector3d) (c0 : Cumulants)
    (cloud : PointCloud) (indices : List Int)
    (h : ∀ j ∈ indices, 0 ≤ j ∧ j < (cloud.points_.length : Int)) :
    ∃ n, ComputeNormal solver c0 cloud indices = some n := by
  unfold ComputeNormal
  split
  · exact ⟨_, rfl⟩
  · obtain ⟨c, hc⟩ := accumulateAll_isSome cloud.points_ indices h c0
    exact ⟨solver (covarianceOf (c.divide (indices.length : ℚ))), by simp [covarianceMatrix, hc]⟩

theorem candidate_isSome {P : Type} (K : Collaborators P) (c0 : Cumulants) (search_param : P)
    (points : List Vector3d) (hS : SearchInRange K search_param points)
    (i : Nat) (hi : i < points.length) :
    ∃ n, candidate K c0 search_param points i = some n := by
  unfold candidate
  rw [List.getElem?_eq_getElem hi]
  exact ComputeNormal_isSome _ _ ⟨points, []⟩ _ (hS _)

/-- The loop of either overload, for a body that writes at index `i` a value
`w i old` computed from the index and from the normal `old` found there. -/
theorem forLoop_spec (body : PointCloud → Nat → Option PointCloud) (pts : List Vector3d)
    (w : Nat → Vector3d → Vector3d)
    (hbody : ∀ c i old, c.points_ = pts → i < pts.length → c.normals_[i]? = some old →
      body c i = some ⟨pts, c.normals_.set i (w i old)⟩)
    (k i : Nat) (c : PointCloud) (hp : c.points_ = pts)
    (hn : c.normals_.length = pts.length) (hk : i + k = pts.length) :
    ∃ out, forLoop body k i c = some out ∧ out.points_ = pts ∧
      out.normals_.length = pts.length ∧
      (∀ j, j < i → out.normals_[j]? = c.normals_[j]?) ∧
      (∀ j old, i ≤ j → c.normals_[j]? = some old → out.normals_[j]? = some (w j old)) := by
  induction k generalizing i c with
  | zero =>
    refine ⟨c, rfl, hp, hn, fun _ _ => rfl, ?_⟩
    intro j old hij hj
    have : j < c.normals_.length := by
      by_contra hlt
      rw [List.getElem?_eq_none (by omega)] at hj
      cases hj
    omega
  | succ k ih =>
    have hi : i < pts.length := by omega
    have hi2 : i < c.normals_.length := by omega
    have hold : c.normals_[i]? = some c.normals_[i] := List.getElem?_eq_getElem hi2
    have hb := hbody c i _ hp hi hold
    obtain ⟨out, ho, hop, hon, hlo, hhi⟩ :=
      ih (i + 1) ⟨pts, c.normals_.set i (w i c.normals_[i])⟩ rfl (by simp [hn]) (by omega)
    refine ⟨out, by simp [forLoop, hb, ho], hop, hon, ?_, ?_⟩
    · intro j hj
      rw [hlo j (by omega)]
      simp only [List.getElem?_set]
      rw [if_neg (by omega)]
    · intro j old hij hj
      by_cases hji : j = i
      · subst hji
        rw [hlo j (by omega)]
        rw [hold] at hj
        cases hj
        simp [List.getElem?_set, hi2]
      · apply hhi j old (by omega)
        simp only [List.getElem?_set]
        rw [if_neg (by omega)]
        exact hj

theorem candidate_eq {P : Type} (K : Collaborators P) (c0 : Cumulants) (search_param : P)
    (c : PointCloud) (i : Nat) (hi : i < c.points_.length) :
    ComputeNormal K.eigenvectorsCol0 c0 c (K.Search c.points_ c.points_[i] search_param)
      = candidate K c0 search_param c.points_ i := by
  simp [candidate, List.getElem?_eq_getElem hi, ComputeNormal, covarianceMatrix]

theorem bodyB_eq {P : Type} (K : Collaborators P) (g : Nat → Cumulants)
    (ref : Vector3d) (search_param : P) (pts : List Vector3d)
    (hS : SearchInRange K search_param pts)
    (c : PointCloud) (i : Nat) (old : Vector3d)
    (hp : c.points_ = pts) (hi : i < pts.length) (hold : c.normals_[i]? = some old) :
    bodyB K (g i) ref search_param c i
      = some ⟨pts, c.normals_.set i
          (resolveRef ref ((candidate K (g i) search_param pts i).getD Vector3d.Zero))⟩ := by
  subst hp
  obtain ⟨n, hn⟩ := candidate_isSome K (g i) search_param c.points_ hS i hi
  have hlt : i < c.normals_.length := by
    by_contra hlt
    rw [List.getElem?_eq_none (by omega)] at hold
    cases hold
  simp [bodyB, List.getElem?_eq_getElem hi, candidate_eq K (g i) search_param c i hi, hn,
    writeNormal, hlt, resolveRef]

theorem bodyA_prior_eq {P : Type} (K : Collaborators P) (g : Nat → Cumulants)
    (search_param : P) (pts : List Vector3d)
    (hS : SearchInRange K search_param pts)
    (c : PointCloud) (i : Nat) (old : Vector3d)
    (hp : c.points_ = pts) (hi : i < pts.length) (hold : c.normals_[i]? = some old) :
    bodyA K (g i) search_param true c i
      = some ⟨pts, c.normals_.set i
          (resolvePrior old ((candidate K (g i) search_param pts i).getD Vector3d.Zero))⟩ := by
  subst hp
  obtain ⟨n, hn⟩ := candidate_isSome K (g i) search_param c.points_ hS i hi
  have hlt : i < c.normals_.length := by
    by_contra hlt
    rw [List.getElem?_eq_none (by omega)] at hold
    cases hold
  by_cases hz : normIsZero n = true <;>
    simp [bodyA, List.getElem?_eq_getElem hi, candidate_eq K (g i) search_param c i hi, hn,
      writeNormal, hlt, resolvePrior, hold, hz]

theorem bodyA_noPrior_eq {P : Type} (K : Collaborators P) (g : Nat → Cumulants)
    (search_param : P) (pts : List Vector3d)
    (hS : SearchInRange K search_param pts)
    (c : PointCloud) (i : Nat) (old : Vector3d)
    (hp : c.points_ = pts) (hi : i < pts.length) (hold : c.normals_[i]? = some old) :
    bodyA K (g i) search_param false c i
      = some ⟨pts, c.normals_.set i
          (resolveNoPrior ((candidate K (g i) search_param pts i).getD Vector3d.Zero))⟩ := by
  subst hp
  obtain ⟨n, hn⟩ := candidate_isSome K (g i) search_param c.points_ hS i hi
  have hlt : i < c.normals_.length := by
    by_contra hlt
    rw [List.getElem?_eq_none (by omega)] at hold
    cases hold
  by_cases hz : normIsZero n = true <;>
    simp [bodyA, List.getElem?_eq_getElem hi, candidate_eq K (g i) search_param c i hi, hn,
      writeNormal, hlt, resolveNoPrior, hz]

theorem length_resize (v : List Vector3d) (n : Nat) (fill : Vector3d) :
    (resize v n fill).length = n := by
  simp [resize]
  omega

/-- What the second overload computes: it returns `true`, keeps the points,
and writes at every index the resolved candidate of that point. -/
theorem EstimateNormalsRef_spec {P : Type} (K : Collaborators P) (U : Indeterminate)
    (cloud : PointCloud) (ref : Vector3d) (search_param : P)
    (hS : SearchInRange K search_param cloud.points_) :
    ∃ out, EstimateNormalsRef K U cloud ref search_param = some (true, out) ∧
      out.points_ = cloud.points_ ∧ out.normals_.length = cloud.points_.length ∧
      ∀ i, i < cloud.points_.length →
        ∃ n, candidate K (U.cumulants0 i) search_param cloud.points_ i = some n ∧
          out.normals_[i]? = some (resolveRef ref n) := by
  let c0 : PointCloud :=
    if cloud.HasNormals = false then
      { cloud with normals_ := resize cloud.normals_ cloud.points_.length U.fill }
    else cloud
  have hc0p : c0.points_ = cloud.points_ := by
    simp only [c0]; split <;> rfl
  have hc0n : c0.normals_.length = cloud.points_.length := by
    simp only [c0]
    split
    · exact length_resize _ _ _
    · rename_i h
      simp [PointCloud.HasNormals] at h
      exact h.2
  obtain ⟨out, ho, hop, hon, -, hhi⟩ :=
    forLoop_spec (fun c i => bodyB K (U.cumulants0 i) ref search_param c i) cloud.points_
      (fun i _ => resolveRef ref
        ((candidate K (U.cumulants0 i) search_param cloud.points_ i).getD Vector3d.Zero))
      (fun c i old hp hi hold =>
        bodyB_eq K U.cumulants0 ref search_param cloud.points_ hS c i old hp hi hold)
      cloud.points_.length 0 c0 hc0p hc0n (by omega)
  refine ⟨out, ?_, hop, hon, ?_⟩
  · show Option.map _ (forLoop _ c0.points_.length 0 c0) = _
    rw [hc0p, ho]; rfl
  · intro i hi
    obtain ⟨n, hn⟩ := candidate_isSome K (U.cumulants0 i) search_param cloud.points_ hS i hi
    refine ⟨n, hn, ?_⟩
    have := hhi i c0.normals_[i] (by omega) (List.getElem?_eq_getElem (by omega))
    rw [this, hn]; rfl

/-- What the first overload computes for a cloud that has normals on entry:
it returns `true`, keeps the points, and writes at every index the candidate of
that point resolved against the normal stored there on entry. -/
theorem EstimateNormals_spec_prior {P : Type} (K : Collaborators P) (U : Indeterminate)
    (cloud : PointCloud) (search_param : P)
    (hN : cloud.HasNormals = true)
    (hS : SearchInRange K search_param cloud.points_) :
    ∃ out, EstimateNormals K U cloud search_param = some (true, out) ∧
      out.points_ = cloud.points_ ∧ out.normals_.length = cloud.points_.length ∧
      ∀ i, i < cloud.points_.length →
        ∃ n old, candidate K (U.cumulants0 i) search_param cloud.points_ i = some n ∧
          cloud.normals_[i]? = some old ∧
          out.normals_[i]? = some (resolvePrior old n) := by
  have hlen : cloud.normals_.length = cloud.points_.length := by
    simp [PointCloud.HasNormals] at hN
    exact hN.2
  obtain ⟨out, ho, hop, hon, -, hhi⟩ :=
    forLoop_spec (fun c i => bodyA K (U.cumulants0 i) search_param true c i) cloud.points_
      (fun i old => resolvePrior old
        ((candidate K (U.cumulants0 i) search_param cloud.points_ i).getD Vector3d.Zero))
      (fun c i old hp hi hold =>
        bodyA_prior_eq K U.cumulants0 search_param cloud.points_ hS c i old hp hi hold)
      cloud.points_.length 0 cloud rfl hlen (by omega)
  refine ⟨out, ?_, hop, hon, ?_⟩
  · simp [EstimateNormals, hN, ho]
  · intro i hi
    obtain ⟨n, hn⟩ := candidate_isSome K (U.cumulants0 i) search_param cloud.points_ hS i hi
    have hold : cloud.normals_[i]? = some cloud.normals_[i] :=
      List.getElem?_eq_getElem (by omega)
    refine ⟨n, cloud.normals_[i], hn, hold, ?_⟩
    have := hhi i cloud.normals_[i] (by omega) hold
    rw [this, hn]; rfl

/-- What the first overload computes for a cloud that has no normals on entry:
it returns `true`, keeps the points, and writes at every index the candidate of
that point, or `(0, 0, 1)` when the candidate has zero norm. -/
theorem EstimateNormals_spec_noPrior {P : Type} (K : Collaborators P) (U : Indeterminate)
    (cloud : PointCloud) (search_param : P)
    (hN : cloud.HasNormals = false)
    (hS : SearchInRange K search_param cloud.points_) :
    ∃ out, EstimateNormals K U cloud search_param = some (true, out) ∧
      out.points_ = cloud.points_ ∧ out.normals_.length = cloud.points_.length ∧
      ∀ i, i < cloud.points_.length →
        ∃ n, candidate K (U.cumulants0 i) search_param cloud.points_ i = some n ∧
          out.normals_[i]? = some (resolveNoPrior n) := by
  obtain ⟨out, ho, hop, hon, -, hhi⟩ :=
    forLoop_spec (fun c i => bodyA K (U.cumulants0 i) search_param false c i) cloud.points_
      (fun i _ => resolveNoPrior
        ((candidate K (U.cumulants0 i) search_param cloud.points_ i).getD Vector3d.Zero))
      (fun c i old hp hi hold =>
        bodyA_noPrior_eq K U.cumulants0 search_param cloud.points_ hS c i old hp hi hold)
      cloud.points_.length 0
      ⟨cloud.points_, resize cloud.normals_ cloud.points_.length U.fill⟩ rfl
      (length_resize _ _ _) (by omega)
  refine ⟨out, ?_, hop, hon, ?_⟩
  · simp [EstimateNormals, hN, ho]
  · intro i hi
    obtain ⟨n, hn⟩ := candidate_isSome K (U.cumulants0 i) search_param cloud.points_ hS i hi
    refine ⟨n, hn, ?_⟩
    have hlt : i < (resize cloud.normals_ cloud.points_.length U.fill).length := by
      rw [length_resize]; exact hi
    have := hhi i (resize cloud.normals_ cloud.points_.length U.fill)[i] (by omega)
      (List.getElem?_eq_getElem hlt)
    rw [this, hn]; rfl

/-! ## The accumulation loop -/

theorem sumOver_nil (f : Vector3d → ℚ) : sumOver f [] = 0 := rfl

theorem sumOver_cons (f : Vector3d → ℚ) (p : Vector3d) (l : List Vector3d) :
    sumOver f (p :: l) = f p + sumOver f l := by
  simp [sumOver]

theorem addMoments_cons (c0 : Cumulants) (p : Vector3d) (l : List Vector3d) :
    addMoments (accumulate c0 p) l = addMoments c0 (p :: l) := by
  simp only [addMoments, accumulate, sumOver_cons, Cumulants.mk.injEq]
  refine ⟨?_, ?_, ?_, ?_, ?_, ?_, ?_, ?_, ?_⟩ <;> ring

/-- The accumulation loop adds the moments of the neighbour points to whatever
the accumulators held when it started. -/
theorem accumulateAll_eq (points : List Vector3d) (indices : List Int) (c0 c : Cumulants)
    (h : accumulateAll points indices c0 = some c) :
    c = addMoments c0 (neighborPoints points indices) := by
  induction indices generalizing c0 with
  | nil =>
    simp only [accumulateAll, Option.some.injEq] at h
    subst h
    simp [addMoments, neighborPoints, sumOver_nil]
  | cons j js ih =>
    unfold accumulateAll at h
    cases hp : at? points j with
    | none => simp [hp] at h
    | some p =>
      simp only [hp] at h
      have := ih _ h
      rw [this, addMoments_cons]
      simp [neighborPoints, List.filterMap_cons, hp]

/-- With in-range indices the covariance matrix is defined, and its value is
given by the moments of the neighbour points added to the initial accumulator
content. -/
theorem covarianceMatrix_eq (c0 : Cumulants) (cloud : PointCloud) (indices : List Int)
    (h : ∀ j ∈ indices, 0 ≤ j ∧ j < (cloud.points_.length : Int)) :
    covarianceMatrix c0 cloud indices
      = some (covarianceOf ((addMoments c0 (neighborPoints cloud.points_ indices)).divide
          (indices.length : ℚ))) := by
  obtain ⟨c, hc⟩ := accumulateAll_isSome cloud.points_ indices h c0
  have := accumulateAll_eq _ _ _ _ hc
  simp [covarianceMatrix, hc, this]

theorem covarianceOf_symm (c : Cumulants) (a b : Fin 3) :
    (covarianceOf c).coeff a b = (covarianceOf c).coeff b a := by
  fin_cases a <;> fin_cases b <;> rfl

/-- When the accumulators start from zero, the matrix handed to the solver is
the covariance of the specification, entry for entry. -/
theorem covarianceMatrix_zero_init (cloud : PointCloud) (indices : List Int)
    (h : ∀ j ∈ indices, 0 ≤ j ∧ j < (cloud.points_.length : Int)) :
    ∃ M, covarianceMatrix Cumulants.Zero cloud indices = some M ∧
      ∀ a b, M.coeff a b = specCovariance cloud.points_ indices a b := by
  refine ⟨_, covarianceMatrix_eq _ _ _ h, ?_⟩
  have hyx : (fun p : Vector3d => p.y * p.x) = fun p => p.x * p.y := by funext p; ring
  have hzx : (fun p : Vector3d => p.z * p.x) = fun p => p.x * p.z := by funext p; ring
  have hzy : (fun p : Vector3d => p.z * p.y) = fun p => p.y * p.z := by funext p; ring
  intro a b
  fin_cases a <;> fin_cases b <;>
    simp [covarianceOf, Cumulants.divide, addMoments, Cumulants.Zero, specCovariance,
      Matrix3d.coeff, Vector3d.coeff, hyx, hzx, hzy] <;> ring

/-! ## Vector lemmas -/

theorem squaredNorm_eq_zero_iff (v : Vector3d) : v.squaredNorm = 0 ↔ v = Vector3d.Zero := by
  constructor
  · intro h
    unfold Vector3d.squaredNorm at h
    have hx : v.x = 0 := by nlinarith [mul_self_nonneg v.x, mul_self_nonneg v.y, mul_self_nonneg v.z]
    have hy : v.y = 0 := by nlinarith [mul_self_nonneg v.x, mul_self_nonneg v.y, mul_self_nonneg v.z]
    have hz : v.z = 0 := by nlinarith [mul_self_nonneg v.x, mul_self_nonneg v.y, mul_self_nonneg v.z]
    cases v
    simp_all [Vector3d.Zero]
  · intro h
    subst h
    simp [Vector3d.squaredNorm, Vector3d.Zero]

theorem normIsZero_iff (v : Vector3d) : normIsZero v = true ↔ v = Vector3d.Zero := by
  simp [normIsZero, squaredNorm_eq_zero_iff]

theorem normIsZero_Zero : normIsZero Vector3d.Zero = true := (normIsZero_iff _).2 rfl

theorem normIsZero_of_ne (v : Vector3d) (h : v ≠ Vector3d.Zero) : normIsZero v = false := by
  cases hv : normIsZero v with
  | false => rfl
  | true => exact absurd ((normIsZero_iff v).1 hv) h

theorem dot_self_nonneg (v : Vector3d) : ¬ v.dot v < 0 := by
  unfold Vector3d.dot
  nlinarith [mul_self_nonneg v.x, mul_self_nonneg v.y, mul_self_nonneg v.z]

theorem dot_neg_left (v w : Vector3d) : (v.neg).dot w = -(v.dot w) := by
  simp [Vector3d.dot, Vector3d.neg]; ring

theorem squaredNorm_neg (v : Vector3d) : (v.neg).squaredNorm = v.squaredNorm := by
  simp [Vector3d.squaredNorm, Vector3d.neg]

/-! ## The resolved value -/

theorem resolveRef_Zero (ref : Vector3d) : resolveRef ref Vector3d.Zero = ref := by
  simp [resolveRef, normIsZero_Zero]

theorem resolvePrior_Zero (old : Vector3d) : resolvePrior old Vector3d.Zero = old := by
  simp [resolvePrior, normIsZero_Zero, dot_self_nonneg]

theorem resolveNoPrior_Zero : resolveNoPrior Vector3d.Zero = ⟨0, 0, 1⟩ := by
  simp [resolveNoPrior, normIsZero_Zero]

theorem resolveRef_dot_nonneg (ref n : Vector3d) (h : n ≠ Vector3d.Zero) :
    0 ≤ (resolveRef ref n).dot ref := by
  unfold resolveRef
  rw [normIsZero_of_ne n h]
  by_cases hd : n.dot ref < 0
  · simp only [hd, if_true, Bool.false_eq_true, if_false, dot_neg_left]
    linarith
  · simp only [hd, Bool.false_eq_true, if_false]
    linarith

theorem resolvePrior_dot_nonneg (old n : Vector3d) (h : n ≠ Vector3d.Zero) :
    0 ≤ (resolvePrior old n).dot old := by
  unfold resolvePrior
  rw [normIsZero_of_ne n h]
  by_cases hd : n.dot old < 0
  · simp only [hd, if_true, Bool.false_eq_true, if_false, dot_neg_left]
    linarith
  · simp only [hd, Bool.false_eq_true, if_false]
    linarith

theorem resolveRef_cases (ref n : Vector3d) (h : n ≠ Vector3d.Zero) :
    resolveRef ref n = n ∨ resolveRef ref n = n.neg := by
  unfold resolveRef
  rw [normIsZero_of_ne n h]
  by_cases hd : n.dot ref < 0 <;> simp [hd]

theorem resolvePrior_cases (old n : Vector3d) (h : n ≠ Vector3d.Zero) :
    resolvePrior old n = n ∨ resolvePrior old n = n.neg := by
  unfold resolvePrior
  rw [normIsZero_of_ne n h]
  by_cases hd : n.dot old < 0 <;> simp [hd]

theorem resolveNoPrior_of_ne (n : Vector3d) (h : n ≠ Vector3d.Zero) :
    resolveNoPrior n = n := by
  simp [resolveNoPrior, normIsZero_of_ne n h]

theorem candidate_of_empty {P : Type} (K : Collaborators P) (c0 : Cumulants) (search_param : P)
    (points : List Vector3d) (i : Nat) (query : Vector3d)
    (hq : points[i]? = some query) (hE : K.Search points query search_param = []) :
    candidate K c0 search_param points i = some Vector3d.Zero := by
  simp [candidate, hq, hE, ComputeNormal]

theorem lt_of_getElem?_eq_some (l : List Vector3d) (i : Nat) (v : Vector3d)
    (h : l[i]? = some v) : i < l.length := by
  by_contra hlt
  rw [List.getElem?_eq_none (by omega)] at h
  cases h

theorem isolatedSearch_inRange (points : List Vector3d) :
    SearchInRange isolatedSearch () points := by
  intro q j hj
  simp [isolatedSearch] at hj

theorem allIndices_inRange (points : List Vector3d) :
    ∀ j ∈ allIndices points, 0 ≤ j ∧ j < (points.length : Int) := by
  intro j hj
  simp only [allIndices, List.mem_map, List.mem_range] at hj
  obtain ⟨a, ha, rfl⟩ := hj
  exact ⟨Int.ofNat_nonneg a, Int.ofNat_lt.2 ha⟩

theorem allPointsSearch_inRange (points : List Vector3d) :
    SearchInRange allPointsSearch () points :=
  fun _ j hj => allIndices_inRange points j hj

/-! ## The claims -/

/-- C1 (fails on the code): the accumulators are read before anything is
stored in them, so their initial content also enters the matrix handed to the
solver.  For the single neighbour `(1, 0, 0)` and accumulators that all hold
`1` when the loop starts, the entry `(0, 0)` of the matrix is `-2`, while the
covariance of the neighbour points is `0`. -/
theorem C1_uninitialised_cumulants_enter_covariance :
    covarianceMatrix ⟨1, 1, 1, 1, 1, 1, 1, 1, 1⟩ ⟨[⟨1, 0, 0⟩], []⟩ [0]
      = some ⟨-2, -1, -1, -1, 0, 0, -1, 0, 0⟩ ∧
    (⟨-2, -1, -1, -1, 0, 0, -1, 0, 0⟩ : Matrix3d).coeff 0 0 = -2 ∧
    specCovariance [⟨1, 0, 0⟩] [0] 0 0 = 0 := by
  refine ⟨?_, rfl, ?_⟩
  · norm_num [covarianceMatrix, accumulateAll, at?, accumulate, Cumulants.divide, covarianceOf]
  · norm_num [specCovariance, neighborPoints, at?, sumOver, Vector3d.coeff, List.filterMap_cons]

/-- C2: when the search returns no neighbour for point `i`, `ComputeNormal`
returns the zero vector without touching the accumulators, and the normal
written at `i` is the fallback: the reference vector in the second overload;
in the first overload the normal stored at `i` on entry when the cloud had
normals, and `(0, 0, 1)` when it had none. -/
theorem C2_empty_neighbors_write_fallback {P : Type} (K : Collaborators P) (U : Indeterminate)
    (cloud : PointCloud) (ref : Vector3d) (search_param : P)
    (hS : SearchInRange K search_param cloud.points_)
    (i : Nat) (query : Vector3d) (hq : cloud.points_[i]? = some query)
    (hE : K.Search cloud.points_ query search_param = []) :
    candidate K (U.cumulants0 i) search_param cloud.points_ i = some Vector3d.Zero ∧
    (∃ out, EstimateNormalsRef K U cloud ref search_param = some (true, out) ∧
      out.normals_[i]? = some ref) ∧
    (cloud.HasNormals = true →
      ∃ out old, EstimateNormals K U cloud search_param = some (true, out) ∧
        cloud.normals_[i]? = some old ∧ out.normals_[i]? = some old) ∧
    (cloud.HasNormals = false →
      ∃ out, EstimateNormals K U cloud search_param = some (true, out) ∧
        out.normals_[i]? = some ⟨0, 0, 1⟩) := by
  have hi := lt_of_getElem?_eq_some _ _ _ hq
  have hc := candidate_of_empty K (U.cumulants0 i) search_param cloud.points_ i query hq hE
  refine ⟨hc, ?_, ?_, ?_⟩
  · obtain ⟨out, ho, -, -, h⟩ := EstimateNormalsRef_spec K U cloud ref search_param hS
    obtain ⟨n, hn, hw⟩ := h i hi
    rw [hc] at hn
    cases hn
    exact ⟨out, ho, by rw [hw, resolveRef_Zero]⟩
  · intro hN
    obtain ⟨out, ho, -, -, h⟩ := EstimateNormals_spec_prior K U cloud search_param hN hS
    obtain ⟨n, old, hn, hold, hw⟩ := h i hi
    rw [hc] at hn
    cases hn
    exact ⟨out, old, ho, hold, by rw [hw, resolvePrior_Zero]⟩
  · intro hN
    obtain ⟨out, ho, -, -, h⟩ := EstimateNormals_spec_noPrior K U cloud search_param hN hS
    obtain ⟨n, hn, hw⟩ := h i hi
    rw [hc] at hn
    cases hn
    exact ⟨out, ho, by rw [hw, resolveNoPrior_Zero]⟩

/-- C2 at a concrete input: one isolated point, reference `(1, 0, 0)`; the
second overload writes exactly `(1, 0, 0)`. -/
theorem C2_empty_neighbors_witness :
    ∃ out, EstimateNormalsRef isolatedSearch zeroIndeterminate onePointCloud ⟨1, 0, 0⟩ ()
        = some (true, out) ∧
      out.normals_[0]? = some ⟨1, 0, 0⟩ :=
  (C2_empty_neighbors_write_fallback isolatedSearch zeroIndeterminate onePointCloud ⟨1, 0, 0⟩ ()
    (isolatedSearch_inRange _) 0 ⟨3, 4, 5⟩ rfl rfl).2.1

/-- C3: in the second overload, the normal written at a point whose candidate
is not the zero vector has a non-negative dot product with the reference. -/
theorem C3_modeB_dot_reference_nonneg {P : Type} (K : Collaborators P) (U : Indeterminate)
    (cloud : PointCloud) (ref : Vector3d) (search_param : P)
    (hS : SearchInRange K search_param cloud.points_) :
    ∃ out, EstimateNormalsRef K U cloud ref search_param = some (true, out) ∧
      ∀ i, i < cloud.points_.length →
        ∃ n, candidate K (U.cumulants0 i) search_param cloud.points_ i = some n ∧
          (n ≠ Vector3d.Zero →
            ∃ Nnew, out.normals_[i]? = some Nnew ∧ 0 ≤ Nnew.dot ref) := by
  obtain ⟨out, ho, -, -, h⟩ := EstimateNormalsRef_spec K U cloud ref search_param hS
  refine ⟨out, ho, fun i hi => ?_⟩
  obtain ⟨n, hn, hw⟩ := h i hi
  exact ⟨n, hn, fun hne => ⟨_, hw, resolveRef_dot_nonneg ref n hne⟩⟩

/-- C3 at a concrete input: two points, each with both points as neighbours,
solver vector `(0, 1, 0)`, reference `(0, -1, 0)`. -/
theorem C3_modeB_dot_reference_witness :
    ∃ out, EstimateNormalsRef allPointsSearch zeroIndeterminate twoPointCloud ⟨0, -1, 0⟩ ()
        = some (true, out) ∧
      ∀ i, i < twoPointCloud.points_.length →
        ∃ n, candidate allPointsSearch (zeroIndeterminate.cumulants0 i) ()
            twoPointCloud.points_ i = some n ∧
          (n ≠ Vector3d.Zero →
            ∃ Nnew, out.normals_[i]? = some Nnew ∧ 0 ≤ Nnew.dot ⟨0, -1, 0⟩) :=
  C3_modeB_dot_reference_nonneg allPointsSearch zeroIndeterminate twoPointCloud ⟨0, -1, 0⟩ ()
    (allPointsSearch_inRange _)

/-- C4: in the first overload, for a cloud that has normals on entry, the
normal written at a point whose candidate is not the zero vector has a
non-negative dot product with the normal stored at that point on entry. -/
theorem C4_modeA_dot_prior_nonneg {P : Type} (K : Collaborators P) (U : Indeterminate)
    (cloud : PointCloud) (search_param : P)
    (hN : cloud.HasNormals = true)
    (hS : SearchInRange K search_param cloud.points_) :
    ∃ out, EstimateNormals K U cloud search_param = some (true, out) ∧
      ∀ i, i < cloud.points_.length →
        ∃ n Nold, candidate K (U.cumulants0 i) search_param cloud.points_ i = some n ∧
          cloud.normals_[i]? = some Nold ∧
          (n ≠ Vector3d.Zero →
            ∃ Nnew, out.normals_[i]? = some Nnew ∧ 0 ≤ Nnew.dot Nold) := by
  obtain ⟨out, ho, -, -, h⟩ := EstimateNormals_spec_prior K U cloud search_param hN hS
  refine ⟨out, ho, fun i hi => ?_⟩
  obtain ⟨n, old, hn, hold, hw⟩ := h i hi
  exact ⟨n, old, hn, hold, fun hne => ⟨_, hw, resolvePrior_dot_nonneg old n hne⟩⟩

/-- C4 at a concrete input: two points with prior normals `(0, -1, 0)` and
`(1, 0, 0)`, solver vector `(0, 1, 0)`. -/
theorem C4_modeA_dot_prior_witness :
    ∃ out, EstimateNormals allPointsSearch zeroIndeterminate twoPointCloud () = some (true, out) ∧
      ∀ i, i < twoPointCloud.points_.length →
        ∃ n Nold, candidate allPointsSearch (zeroIndeterminate.cumulants0 i) ()
            twoPointCloud.points_ i = some n ∧
          twoPointCloud.normals_[i]? = some Nold ∧
          (n ≠ Vector3d.Zero →
            ∃ Nnew, out.normals_[i]? = some Nnew ∧ 0 ≤ Nnew.dot Nold) :=
  C4_modeA_dot_prior_nonneg allPointsSearch zeroIndeterminate twoPointCloud ()
    (by decide) (allPointsSearch_inRange _)

theorem ne_Zero_of_unit (v : Vector3d) (h : v.squaredNorm = 1) : v ≠ Vector3d.Zero := by
  intro hz
  rw [(squaredNorm_eq_zero_iff v).2 hz] at h
  exact absurd h (by norm_num)

/-- For a point whose neighbour list is not empty, the candidate is the vector
the solver returns for the covariance matrix of that list. -/
theorem candidate_of_nonempty {P : Type} (K : Collaborators P) (c0 : Cumulants)
    (search_param : P) (cloud : PointCloud)
    (hS : SearchInRange K search_param cloud.points_)
    (i : Nat) (query : Vector3d) (hq : cloud.points_[i]? = some query)
    (hne : K.Search cloud.points_ query search_param ≠ []) :
    ∃ M, covarianceMatrix c0 cloud (K.Search cloud.points_ query search_param) = some M ∧
      candidate K c0 search_param cloud.points_ i = some (K.eigenvectorsCol0 M) := by
  have hM := covarianceMatrix_eq c0 cloud (K.Search cloud.points_ query search_param) (hS query)
  refine ⟨_, hM, ?_⟩
  have hlen : (K.Search cloud.points_ query search_param).length ≠ 0 := by
    intro h
    exact hne (List.length_eq_zero.1 h)
  have hM2 : covarianceMatrix c0 ⟨cloud.points_, []⟩ (K.Search cloud.points_ query search_param)
      = covarianceMatrix c0 cloud (K.Search cloud.points_ query search_param) := rfl
  simp only [candidate, hq, ComputeNormal, hlen, if_false, hM2, hM, Option.map_some']

theorem singleNeighbourSearch_inRange :
    SearchInRange singleNeighbourSearch () onePointCloud.points_ := by
  intro q j hj
  simp only [singleNeighbourSearch, List.mem_singleton] at hj
  subst hj
  simp [onePointCloud]

/-- C5 (as stated, fails): one point whose search returns the single index
`0`.  The matrix handed to the solver is the zero matrix, the solver returns
the unit vector `(1, 0, 0)`, which meets its contract there, and the second
overload with reference `(0, 0, 1)` writes `(1, 0, 0)`, not the reference. -/
theorem C5_single_neighbor_not_fallback :
    singleNeighbourSearch.Search onePointCloud.points_ ⟨3, 4, 5⟩ () = [0] ∧
    covarianceMatrix (zeroIndeterminate.cumulants0 0) onePointCloud [0]
      = some ⟨0, 0, 0, 0, 0, 0, 0, 0, 0⟩ ∧
    IsLeastUnitEigenvector ⟨0, 0, 0, 0, 0, 0, 0, 0, 0⟩
      (singleNeighbourSearch.eigenvectorsCol0 ⟨0, 0, 0, 0, 0, 0, 0, 0, 0⟩) ∧
    EstimateNormalsRef singleNeighbourSearch zeroIndeterminate onePointCloud ⟨0, 0, 1⟩ ()
      = some (true, ⟨[⟨3, 4, 5⟩], [⟨1, 0, 0⟩]⟩) ∧
    (⟨1, 0, 0⟩ : Vector3d) ≠ ⟨0, 0, 1⟩ := by
  refine ⟨rfl, ?_, ?_, ?_, by decide⟩
  · norm_num [covarianceMatrix, accumulateAll, at?, accumulate, Cumulants.divide, covarianceOf,
      zeroIndeterminate, Cumulants.Zero, onePointCloud]
  · refine ⟨by norm_num [singleNeighbourSearch, Vector3d.squaredNorm], 0, ?_, ?_⟩
    · simp [singleNeighbourSearch, Matrix3d.mulVec, Vector3d.scale]
    · intro w mu hw h
      by_contra hlt
      have hmu : mu ≠ 0 := by
        intro h0
        exact hlt (by rw [h0])
      apply hw
      simp only [Matrix3d.mulVec, Vector3d.scale, Vector3d.mk.injEq] at h
      cases w with
      | mk x y z =>
        simp only [zero_mul, zero_add] at h
        obtain ⟨h1, h2, h3⟩ := h
        have hx : x = 0 := by
          rcases mul_eq_zero.1 h1.symm with h | h
          · exact absurd h hmu
          · exact h
        have hy : y = 0 := by
          rcases mul_eq_zero.1 h2.symm with h | h
          · exact absurd h hmu
          · exact h
        have hz : z = 0 := by
          rcases mul_eq_zero.1 h3.symm with h | h
          · exact absurd h hmu
          · exact h
        simp [hx, hy, hz, Vector3d.Zero]
  · norm_num [EstimateNormalsRef, forLoop, bodyB, ComputeNormal, covarianceMatrix, accumulateAll,
      at?, singleNeighbourSearch, zeroIndeterminate, onePointCloud, PointCloud.HasNormals,
      writeNormal, normIsZero, Vector3d.squaredNorm, Vector3d.dot, resize]

/-- C5 (amended): for a point whose search returns exactly one index, the
candidate is the vector `v` the solver returns for the matrix built from that
one neighbour.  If `v` is the zero vector the written normal is exactly the
fallback (reference; prior normal; `(0, 0, 1)`).  If `v` has unit length, as
the solver contract says, the written normal is `v` or its negation and has
unit length. -/
theorem C5_single_neighbor_written_value {P : Type} (K : Collaborators P) (U : Indeterminate)
    (cloud : PointCloud) (ref : Vector3d) (search_param : P)
    (hS : SearchInRange K search_param cloud.points_)
    (i : Nat) (query : Vector3d) (hq : cloud.points_[i]? = some query)
    (j : Int) (hE : K.Search cloud.points_ query search_param = [j]) :
    ∃ M v, covarianceMatrix (U.cumulants0 i) cloud [j] = some M ∧
      v = K.eigenvectorsCol0 M ∧
      candidate K (U.cumulants0 i) search_param cloud.points_ i = some v ∧
      (∃ out w, EstimateNormalsRef K U cloud ref search_param = some (true, out) ∧
        out.normals_[i]? = some w ∧ (v = Vector3d.Zero → w = ref) ∧
        (v.squaredNorm = 1 → (w = v ∨ w = v.neg) ∧ w.squaredNorm = 1)) ∧
      (cloud.HasNormals = true →
        ∃ out old w, EstimateNormals K U cloud search_param = some (true, out) ∧
          cloud.normals_[i]? = some old ∧
          out.normals_[i]? = some w ∧ (v = Vector3d.Zero → w = old) ∧
          (v.squaredNorm = 1 → (w = v ∨ w = v.neg) ∧ w.squaredNorm = 1)) ∧
      (cloud.HasNormals = false →
        ∃ out w, EstimateNormals K U cloud search_param = some (true, out) ∧
          out.normals_[i]? = some w ∧ (v = Vector3d.Zero → w = ⟨0, 0, 1⟩) ∧
          (v.squaredNorm = 1 → w = v ∧ w.squaredNorm = 1)) := by
  have hi := lt_of_getElem?_eq_some _ _ _ hq
  obtain ⟨M, hM, hc⟩ := candidate_of_nonempty K (U.cumulants0 i) search_param cloud hS i query hq
    (by rw [hE]; simp)
  rw [hE] at hM
  refine ⟨M, K.eigenvectorsCol0 M, hM, rfl, hc, ?_, ?_, ?_⟩
  · obtain ⟨out, ho, -, -, h⟩ := EstimateNormalsRef_spec K U cloud ref search_param hS
    obtain ⟨n, hn, hw⟩ := h i hi
    rw [hc] at hn
    cases hn
    refine ⟨out, _, ho, hw, ?_, ?_⟩
    · intro hz
      rw [hz, resolveRef_Zero]
    · intro hu
      have hcases := resolveRef_cases ref _ (ne_Zero_of_unit _ hu)
      refine ⟨hcases, ?_⟩
      rcases hcases with h1 | h1 <;> rw [h1]
      · exact hu
      · rw [squaredNorm_neg]; exact hu
  · intro hN
    obtain ⟨out, ho, -, -, h⟩ := EstimateNormals_spec_prior K U cloud search_param hN hS
    obtain ⟨n, old, hn, hold, hw⟩ := h i hi
    rw [hc] at hn
    cases hn
    refine ⟨out, old, _, ho, hold, hw, ?_, ?_⟩
    · intro hz
      rw [hz, resolvePrior_Zero]
    · intro hu
      have hcases := resolvePrior_cases old _ (ne_Zero_of_unit _ hu)
      refine ⟨hcases, ?_⟩
      rcases hcases with h1 | h1 <;> rw [h1]
      · exact hu
      · rw [squaredNorm_neg]; exact hu
  · intro hN
    obtain ⟨out, ho, -, -, h⟩ := EstimateNormals_spec_noPrior K U cloud search_param hN hS
    obtain ⟨n, hn, hw⟩ := h i hi
    rw [hc] at hn
    cases hn
    refine ⟨out, _, ho, hw, ?_, ?_⟩
    · intro hz
      rw [hz, resolveNoPrior_Zero]
    · intro hu
      rw [resolveNoPrior_of_ne _ (ne_Zero_of_unit _ hu)]
      exact ⟨rfl, hu⟩

/-- C5 (amended) at a concrete input: the one-point cloud whose search returns
the index `0`. -/
theorem C5_single_neighbor_witness :
    ∃ M v, covarianceMatrix (zeroIndeterminate.cumulants0 0) onePointCloud [0] = some M ∧
      v = singleNeighbourSearch.eigenvectorsCol0 M ∧
      candidate singleNeighbourSearch (zeroIndeterminate.cumulants0 0) ()
        onePointCloud.points_ 0 = some v ∧
      (∃ out w, EstimateNormalsRef singleNeighbourSearch zeroIndeterminate onePointCloud
          ⟨0, 0, 1⟩ () = some (true, out) ∧
        out.normals_[0]? = some w ∧ (v = Vector3d.Zero → w = ⟨0, 0, 1⟩) ∧
        (v.squaredNorm = 1 → (w = v ∨ w = v.neg) ∧ w.squaredNorm = 1)) := by
  obtain ⟨M, v, h1, h2, h3, h4, -⟩ :=
    C5_single_neighbor_written_value singleNeighbourSearch zeroIndeterminate onePointCloud
      ⟨0, 0, 1⟩ () singleNeighbourSearch_inRange 0 ⟨3, 4, 5⟩ rfl 0 rfl
  exact ⟨M, v, h1, h2, h3, h4⟩

theorem squaredNorm_of_cases (w n : Vector3d) (h : w = n ∨ w = n.neg) :
    w.squaredNorm = n.squaredNorm := by
  rcases h with h | h <;> rw [h]
  exact squaredNorm_neg n

/-- C6: in both overloads, the normal written at a point whose candidate is
not the zero vector is the candidate or its negation; its squared length is
the candidate's, so a unit candidate gives a unit normal. -/
theorem C6_written_is_candidate_up_to_sign {P : Type} (K : Collaborators P) (U : Indeterminate)
    (cloud : PointCloud) (ref : Vector3d) (search_param : P)
    (hS : SearchInRange K search_param cloud.points_) :
    (∃ out, EstimateNormalsRef K U cloud ref search_param = some (true, out) ∧
      ∀ i, i < cloud.points_.length →
        ∃ n, candidate K (U.cumulants0 i) search_param cloud.points_ i = some n ∧
          (n ≠ Vector3d.Zero →
            ∃ w, out.normals_[i]? = some w ∧ (w = n ∨ w = n.neg) ∧
              w.squaredNorm = n.squaredNorm ∧ (n.squaredNorm = 1 → w.squaredNorm = 1))) ∧
    (∃ out, EstimateNormals K U cloud search_param = some (true, out) ∧
      ∀ i, i < cloud.points_.length →
        ∃ n, candidate K (U.cumulants0 i) search_param cloud.points_ i = some n ∧
          (n ≠ Vector3d.Zero →
            ∃ w, out.normals_[i]? = some w ∧ (w = n ∨ w = n.neg) ∧
              w.squaredNorm = n.squaredNorm ∧ (n.squaredNorm = 1 → w.squaredNorm = 1))) := by
  constructor
  · obtain ⟨out, ho, -, -, h⟩ := EstimateNormalsRef_spec K U cloud ref search_param hS
    refine ⟨out, ho, fun i hi => ?_⟩
    obtain ⟨n, hn, hw⟩ := h i hi
    refine ⟨n, hn, fun hne => ⟨_, hw, resolveRef_cases ref n hne, ?_, ?_⟩⟩
    · exact squaredNorm_of_cases _ _ (resolveRef_cases ref n hne)
    · intro hu
      rw [squaredNorm_of_cases _ _ (resolveRef_cases ref n hne)]
      exact hu
  · cases hN : cloud.HasNormals with
    | true =>
      obtain ⟨out, ho, -, -, h⟩ := EstimateNormals_spec_prior K U cloud search_param hN hS
      refine ⟨out, ho, fun i hi => ?_⟩
      obtain ⟨n, old, hn, -, hw⟩ := h i hi
      refine ⟨n, hn, fun hne => ⟨_, hw, resolvePrior_cases old n hne, ?_, ?_⟩⟩
      · exact squaredNorm_of_cases _ _ (resolvePrior_cases old n hne)
      · intro hu
        rw [squaredNorm_of_cases _ _ (resolvePrior_cases old n hne)]
        exact hu
    | false =>
      obtain ⟨out, ho, -, -, h⟩ := EstimateNormals_spec_noPrior K U cloud search_param hN hS
      refine ⟨out, ho, fun i hi => ?_⟩
      obtain ⟨n, hn, hw⟩ := h i hi
      refine ⟨n, hn, fun hne => ⟨_, hw, ?_, ?_, ?_⟩⟩
      · exact Or.inl (resolveNoPrior_of_ne n hne)
      · rw [resolveNoPrior_of_ne n hne]
      · intro hu
        rw [resolveNoPrior_of_ne n hne]
        exact hu

/-- C6 at a concrete input: the two-point cloud with all points as neighbours
and the unit solver vector `(0, 1, 0)`; second overload with reference
`(0, -1, 0)`. -/
theorem C6_written_is_candidate_witness :
    ∃ out, EstimateNormalsRef allPointsSearch zeroIndeterminate twoPointCloud ⟨0, -1, 0⟩ ()
        = some (true, out) ∧
      ∀ i, i < twoPointCloud.points_.length →
        ∃ n, candidate allPointsSearch (zeroIndeterminate.cumulants0 i) ()
            twoPointCloud.points_ i = some n ∧
          (n ≠ Vector3d.Zero →
            ∃ w, out.normals_[i]? = some w ∧ (w = n ∨ w = n.neg) ∧
              w.squaredNorm = n.squaredNorm ∧ (n.squaredNorm = 1 → w.squaredNorm = 1)) :=
  (C6_written_is_candidate_up_to_sign allPointsSearch zeroIndeterminate twoPointCloud
    ⟨0, -1, 0⟩ () (allPointsSearch_inRange _)).1

/-- C7: the fallback is taken if and only if the candidate has zero magnitude.
For every point, the test `normal.norm() == 0.0` of the loop bodies is true
exactly when the candidate `c` is the zero vector.  When `c` is zero the
written normal is the fallback (the reference; the prior normal; `(0, 0, 1)`);
when `c` is not zero the written normal is `c` or its negation, of the same
length.  For a point whose neighbour list is not empty (collinear neighbours
and a singular covariance matrix included) `c` is the solver vector, and when
that vector has unit length the test is false, so the extracted vector is
written and not the fallback. -/
theorem C7_fallback_iff_zero_candidate {P : Type} (K : Collaborators P) (U : Indeterminate)
    (cloud : PointCloud) (ref : Vector3d) (search_param : P)
    (hS : SearchInRange K search_param cloud.points_)
    (i : Nat) (query : Vector3d) (hq : cloud.points_[i]? = some query) :
    ∃ c, candidate K (U.cumulants0 i) search_param cloud.points_ i = some c ∧
      (normIsZero c = true ↔ c = Vector3d.Zero) ∧
      (K.Search cloud.points_ query search_param ≠ [] →
        ∃ M, covarianceMatrix (U.cumulants0 i) cloud (K.Search cloud.points_ query search_param)
            = some M ∧
          c = K.eigenvectorsCol0 M ∧
          (c.squaredNorm = 1 → normIsZero c = false)) ∧
      (∃ out w, EstimateNormalsRef K U cloud ref search_param = some (true, out) ∧
        out.normals_[i]? = some w ∧
        (c = Vector3d.Zero → w = ref) ∧
        (c ≠ Vector3d.Zero → (w = c ∨ w = c.neg) ∧ w.squaredNorm = c.squaredNorm)) ∧
      (cloud.HasNormals = true →
        ∃ out old w, EstimateNormals K U cloud search_param = some (true, out) ∧
          cloud.normals_[i]? = some old ∧ out.normals_[i]? = some w ∧
          (c = Vector3d.Zero → w = old) ∧
          (c ≠ Vector3d.Zero → (w = c ∨ w = c.neg) ∧ w.squaredNorm = c.squaredNorm)) ∧
      (cloud.HasNormals = false →
        ∃ out w, EstimateNormals K U cloud search_param = some (true, out) ∧
          out.normals_[i]? = some w ∧
          (c = Vector3d.Zero → w = ⟨0, 0, 1⟩) ∧
          (c ≠ Vector3d.Zero → w = c)) := by
  have hi := lt_of_getElem?_eq_some _ _ _ hq
  obtain ⟨c, hc⟩ := candidate_isSome K (U.cumulants0 i) search_param cloud.points_ hS i hi
  have htest : normIsZero c = true ↔ c = Vector3d.Zero := by
    unfold normIsZero
    rw [decide_eq_true_iff]
    exact squaredNorm_eq_zero_iff c
  refine ⟨c, hc, htest, ?_, ?_, ?_, ?_⟩
  · intro hne
    obtain ⟨M, hM, hc2⟩ :=
      candidate_of_nonempty K (U.cumulants0 i) search_param cloud hS i query hq hne
    rw [hc] at hc2
    cases hc2
    refine ⟨M, hM, rfl, fun hu => ?_⟩
    cases ht : normIsZero (K.eigenvectorsCol0 M) with
    | false => rfl
    | true => exact absurd (htest.1 ht) (ne_Zero_of_unit _ hu)
  · obtain ⟨out, ho, -, -, h⟩ := EstimateNormalsRef_spec K U cloud ref search_param hS
    obtain ⟨n, hn, hw⟩ := h i hi
    rw [hc] at hn
    cases hn
    refine ⟨out, _, ho, hw, ?_, ?_⟩
    · intro hz
      rw [hz]
      simp [resolveRef, normIsZero, Vector3d.squaredNorm, Vector3d.Zero]
    · intro hne
      exact ⟨resolveRef_cases ref c hne, squaredNorm_of_cases _ _ (resolveRef_cases ref c hne)⟩
  · intro hN
    obtain ⟨out, ho, -, -, h⟩ := EstimateNormals_spec_prior K U cloud search_param hN hS
    obtain ⟨n, old, hn, hold, hw⟩ := h i hi
    rw [hc] at hn
    cases hn
    refine ⟨out, old, _, ho, hold, hw, ?_, ?_⟩
    · intro hz
      rw [hz, resolvePrior_Zero]
    · intro hne
      exact ⟨resolvePrior_cases old c hne,
        squaredNorm_of_cases _ _ (resolvePrior_cases old c hne)⟩
  · intro hN
    obtain ⟨out, ho, -, -, h⟩ := EstimateNormals_spec_noPrior K U cloud search_param hN hS
    obtain ⟨n, hn, hw⟩ := h i hi
    rw [hc] at hn
    cases hn
    refine ⟨out, _, ho, hw, ?_, ?_⟩
    · intro hz
      rw [hz, resolveNoPrior_Zero]
    · intro hne
      exact resolveNoPrior_of_ne c hne

/-- C7 at a concrete input: three points on the x axis, each with all three
as neighbours, and the unit solver vector `(0, 1, 0)`; reference
`(0, 0, 1)`. -/
theorem C7_collinear_witness :
    ∃ c, candidate allPointsSearch (zeroIndeterminate.cumulants0 0) () collinearCloud.points_ 0
        = some c ∧
      (normIsZero c = true ↔ c = Vector3d.Zero) ∧
      (allPointsSearch.Search collinearCloud.points_ ⟨0, 0, 0⟩ () ≠ [] →
        ∃ M, covarianceMatrix (zeroIndeterminate.cumulants0 0) collinearCloud
            (allPointsSearch.Search collinearCloud.points_ ⟨0, 0, 0⟩ ()) = some M ∧
          c = allPointsSearch.eigenvectorsCol0 M ∧
          (c.squaredNorm = 1 → normIsZero c = false)) ∧
      (∃ out w, EstimateNormalsRef allPointsSearch zeroIndeterminate collinearCloud
          ⟨0, 0, 1⟩ () = some (true, out) ∧
        out.normals_[0]? = some w ∧
        (c = Vector3d.Zero → w = ⟨0, 0, 1⟩) ∧
        (c ≠ Vector3d.Zero → (w = c ∨ w = c.neg) ∧ w.squaredNorm = c.squaredNorm)) := by
  obtain ⟨c, h1, h2, h3, h4, -⟩ :=
    C7_fallback_iff_zero_candidate allPointsSearch zeroIndeterminate collinearCloud
      ⟨0, 0, 1⟩ () (allPointsSearch_inRange _) 0 ⟨0, 0, 0⟩ rfl
  exact ⟨c, h1, h2, h3, h4⟩

/-! ## Dependence of the second overload on its input -/

/-- The second overload computes its result from the point positions alone:
two clouds with the same points give the same cloud after the call, whatever
their normal sequences and whatever the appended slots hold, provided both
calls read the same accumulator contents. -/
theorem EstimateNormalsRef_depends_on_points {P : Type} (K : Collaborators P)
    (g : Nat → Cumulants) (fill1 fill2 : Vector3d)
    (points normals1 normals2 : List Vector3d) (ref : Vector3d) (search_param : P)
    (hS : SearchInRange K search_param points) :
    ∃ out, EstimateNormalsRef K ⟨g, fill1⟩ ⟨points, normals1⟩ ref search_param = some (true, out) ∧
      EstimateNormalsRef K ⟨g, fill2⟩ ⟨points, normals2⟩ ref search_param = some (true, out) ∧
      out.points_ = points := by
  obtain ⟨out1, ho1, hp1, hn1, h1⟩ :=
    EstimateNormalsRef_spec K ⟨g, fill1⟩ ⟨points, normals1⟩ ref search_param hS
  obtain ⟨out2, ho2, hp2, hn2, h2⟩ :=
    EstimateNormalsRef_spec K ⟨g, fill2⟩ ⟨points, normals2⟩ ref search_param hS
  have hnorm : out1.normals_ = out2.normals_ := by
    apply List.ext_getElem?
    intro i
    by_cases hi : i < points.length
    · obtain ⟨n1, hc1, hw1⟩ := h1 i hi
      obtain ⟨n2, hc2, hw2⟩ := h2 i hi
      simp only at hc1 hc2
      rw [hc1] at hc2
      cases hc2
      rw [hw1, hw2]
    · simp only at hn1 hn2
      rw [List.getElem?_eq_none (by omega), List.getElem?_eq_none (by omega)]
  have hout : out1 = out2 := by
    cases out1
    cases out2
    simp only at hp1 hp2 hnorm
    simp [hp1, hp2, hnorm]
  refine ⟨out1, ho1, ?_, hp1⟩
  rw [hout]
  exact ho2

/-- When the second run reads the same accumulator contents as the first, it
reproduces the result of the first run. -/
theorem EstimateNormalsRef_rerun_same_cumulants {P : Type} (K : Collaborators P)
    (g : Nat → Cumulants) (fill1 fill2 : Vector3d)
    (cloud : PointCloud) (ref : Vector3d) (search_param : P)
    (hS : SearchInRange K search_param cloud.points_) :
    ∃ out, EstimateNormalsRef K ⟨g, fill1⟩ cloud ref search_param = some (true, out) ∧
      EstimateNormalsRef K ⟨g, fill2⟩ out ref search_param = some (true, out) := by
  obtain ⟨out, ho1, -, hp⟩ :=
    EstimateNormalsRef_depends_on_points K g fill1 fill2 cloud.points_ cloud.normals_
      cloud.normals_ ref search_param hS
  obtain ⟨out2, ho2, ho3, -⟩ :=
    EstimateNormalsRef_depends_on_points K g fill1 fill2 cloud.points_ cloud.normals_
      out.normals_ ref search_param hS
  rw [ho1] at ho2
  cases ho2
  refine ⟨out, ho1, ?_⟩
  have hout : (⟨cloud.points_, out.normals_⟩ : PointCloud) = out := by
    cases out
    simp only at hp
    simp [hp]
  rw [hout] at ho3
  exact ho3

/-- A unit vector in the kernel of a matrix whose quadratic form is nowhere
negative meets the solver contract. -/
theorem isLeastUnitEigenvector_of_kernel (M : Matrix3d) (v : Vector3d)
    (hu : v.squaredNorm = 1) (hk : M.mulVec v = Vector3d.Zero)
    (hpsd : ∀ w, 0 ≤ M.quadForm w) : IsLeastUnitEigenvector M v := by
  refine ⟨hu, 0, ?_, ?_⟩
  · rw [hk]
    simp [Vector3d.scale, Vector3d.Zero]
  · intro w mu hw h
    have hq := hpsd w
    have hpos : 0 < w.squaredNorm := by
      have h0 : w.squaredNorm ≠ 0 := fun h0 => hw ((squaredNorm_eq_zero_iff w).1 h0)
      have h1 : 0 ≤ w.squaredNorm := by
        unfold Vector3d.squaredNorm
        nlinarith [mul_self_nonneg w.x, mul_self_nonneg w.y, mul_self_nonneg w.z]
      exact lt_of_le_of_ne h1 (Ne.symm h0)
    have hq2 : M.quadForm w = mu * w.squaredNorm := by
      unfold Matrix3d.quadForm
      rw [h]
      simp [Vector3d.dot, Vector3d.scale, Vector3d.squaredNorm]
      ring
    rw [hq2] at hq
    by_contra hlt
    have : mu * w.squaredNorm < 0 := mul_neg_of_neg_of_pos (not_le.1 hlt) hpos
    linarith

theorem neighborPoints_length (points : List Vector3d) (indices : List Int)
    (h : ∀ j ∈ indices, 0 ≤ j ∧ j < (points.length : Int)) :
    (neighborPoints points indices).length = indices.length := by
  induction indices with
  | nil => rfl
  | cons j js ih =>
    obtain ⟨p, hp⟩ := at?_isSome points j (h j (by simp)).1 (h j (by simp)).2
    have := ih (fun k hk => h k (by simp [hk]))
    simp only [neighborPoints] at this
    simp [neighborPoints, List.filterMap_cons, hp, this]

theorem mem_of_mem_neighborPoints (points : List Vector3d) (indices : List Int) (p : Vector3d)
    (h : p ∈ neighborPoints points indices) : p ∈ points := by
  simp only [neighborPoints, List.mem_filterMap, at?] at h
  obtain ⟨j, -, hj⟩ := h
  split at hj
  · exact List.getElem?_mem hj
  · cases hj

theorem sumOver_eq_zero (f : Vector3d → ℚ) (l : List Vector3d) (h : ∀ p ∈ l, f p = 0) :
    sumOver f l = 0 := by
  induction l with
  | nil => rfl
  | cons p l ih =>
    rw [sumOver_cons, h p (by simp), ih (fun q hq => h q (by simp [hq]))]
    ring

theorem sumOver_nonneg (f : Vector3d → ℚ) (l : List Vector3d) (h : ∀ p ∈ l, 0 ≤ f p) :
    0 ≤ sumOver f l := by
  induction l with
  | nil => exact le_of_eq rfl
  | cons p l ih =>
    rw [sumOver_cons]
    have h1 := h p (by simp)
    have h2 := ih (fun q hq => h q (by simp [hq]))
    linarith

/-- The sum of squared deviations from `m`, expanded. -/
theorem sumOver_sq_dev (f : Vector3d → ℚ) (m : ℚ) (l : List Vector3d) :
    sumOver (fun p => (f p - m) * (f p - m)) l
      = sumOver (fun p => f p * f p) l - 2 * m * sumOver f l + (l.length : ℚ) * (m * m) := by
  induction l with
  | nil => simp [sumOver_nil]
  | cons p l ih =>
    simp only [sumOver_cons, ih, List.length_cons, Nat.cast_succ]
    ring

/-- A diagonal entry of the covariance of the specification is a mean of
squares, hence not negative. -/
theorem specCovariance_self_nonneg (points : List Vector3d) (indices : List Int)
    (h : ∀ j ∈ indices, 0 ≤ j ∧ j < (points.length : Int)) (a : Fin 3) :
    0 ≤ specCovariance points indices a a := by
  have hlen := neighborPoints_length points indices h
  by_cases hn : (indices.length : ℚ) = 0
  · simp [specCovariance, hn]
  · have hpos : (0 : ℚ) < (indices.length : ℚ) :=
      lt_of_le_of_ne (Nat.cast_nonneg _) (Ne.symm hn)
    have hdev := sumOver_sq_dev (fun p => p.coeff a)
      ((1 / (indices.length : ℚ)) * sumOver (fun p => p.coeff a) (neighborPoints points indices))
      (neighborPoints points indices)
    have hnn := sumOver_nonneg
      (fun p => (p.coeff a - (1 / (indices.length : ℚ)) *
          sumOver (fun p => p.coeff a) (neighborPoints points indices)) *
        (p.coeff a - (1 / (indices.length : ℚ)) *
          sumOver (fun p => p.coeff a) (neighborPoints points indices)))
      (neighborPoints points indices) (fun p _ => mul_self_nonneg _)
    rw [hdev, hlen] at hnn
    have key : specCovariance points indices a a
        = (1 / (indices.length : ℚ)) *
          (sumOver (fun p => p.coeff a * p.coeff a) (neighborPoints points indices)
            - 2 * ((1 / (indices.length : ℚ)) *
                sumOver (fun p => p.coeff a) (neighborPoints points indices)) *
              sumOver (fun p => p.coeff a) (neighborPoints points indices)
            + (indices.length : ℚ) *
              (((1 / (indices.length : ℚ)) *
                  sumOver (fun p => p.coeff a) (neighborPoints points indices)) *
                ((1 / (indices.length : ℚ)) *
                  sumOver (fun p => p.coeff a) (neighborPoints points indices)))) := by
      simp only [specCovariance]
      field_simp
      ring
    rw [key]
    exact mul_nonneg (le_of_lt (one_div_pos.2 hpos)) hnn

/-- For neighbours in the plane `z = 0`, the third row and column of the
covariance of the specification vanish. -/
theorem specCovariance_planar (points : List Vector3d) (indices : List Int)
    (hplane : ∀ p ∈ points, p.z = 0) (a : Fin 3) :
    specCovariance points indices a 2 = 0 ∧ specCovariance points indices 2 a = 0 := by
  have hz : ∀ p ∈ neighborPoints points indices, p.z = 0 :=
    fun p hp => hplane p (mem_of_mem_neighborPoints points indices p hp)
  have h1 : sumOver (fun p => p.coeff 2) (neighborPoints points indices) = 0 :=
    sumOver_eq_zero _ _ (fun p hp => hz p hp)
  have h2 : sumOver (fun p => p.coeff a * p.coeff 2) (neighborPoints points indices) = 0 :=
    sumOver_eq_zero _ _ (fun p hp => by
      show p.coeff a * p.z = 0
      rw [hz p hp, mul_zero])
  have h3 : sumOver (fun p => p.coeff 2 * p.coeff a) (neighborPoints points indices) = 0 :=
    sumOver_eq_zero _ _ (fun p hp => by
      show p.z * p.coeff a = 0
      rw [hz p hp, zero_mul])
  simp [specCovariance, h1, h2, h3]

/-! ## Planar neighbourhoods -/

/-- For a matrix whose third row and column vanish and whose upper-left block
is positive definite, the solver contract leaves only `(0, 0, 1)` and
`(0, 0, -1)`. -/
theorem planar_least_eigenvector (a b d : ℚ) (v : Vector3d)
    (ha : 0 ≤ a) (hdet : 0 < a * d - b * b)
    (hv : IsLeastUnitEigenvector ⟨a, b, 0, b, d, 0, 0, 0, 0⟩ v) :
    v = ⟨0, 0, 1⟩ ∨ v = ⟨0, 0, -1⟩ := by
  obtain ⟨hu, ev, hev, hmin⟩ := hv
  obtain ⟨x, y, z⟩ := v
  simp only [Matrix3d.mulVec, Vector3d.scale, Vector3d.mk.injEq] at hev
  simp only [Vector3d.squaredNorm] at hu
  obtain ⟨h1, h2, h3⟩ := hev
  have hle : ev ≤ 0 := by
    apply hmin ⟨0, 0, 1⟩ 0
    · intro h
      simp [Vector3d.Zero] at h
    · simp [Matrix3d.mulVec, Vector3d.scale]
  have hapos : 0 < a := by
    rcases lt_or_eq_of_le ha with h | h
    · exact h
    · rw [← h] at hdet
      nlinarith [mul_self_nonneg b]
  have hQ : ev = a * (x * x) + 2 * b * (x * y) + d * (y * y) := by
    linear_combination (-ev) * hu - x * h1 - y * h2 - z * h3
  have hge : 0 ≤ ev := by
    have h3 : a * ev = (a * x + b * y) * (a * x + b * y) + (a * d - b * b) * (y * y) := by
      rw [hQ]; ring
    have h4 : 0 ≤ a * ev := by
      rw [h3]
      have := mul_self_nonneg (a * x + b * y)
      have := mul_nonneg (le_of_lt hdet) (mul_self_nonneg y)
      linarith
    by_contra hneg
    have := mul_neg_of_pos_of_neg hapos (not_le.1 hneg)
    linarith
  have hev0 : ev = 0 := le_antisymm hle hge
  rw [hev0] at h1 h2
  have hx : x = 0 := by
    have : (a * d - b * b) * x = 0 := by
      have e : (a * d - b * b) * x
          = d * (a * x + b * y + 0 * z) - b * (b * x + d * y + 0 * z) := by ring
      rw [e, h1, h2]; ring
    rcases mul_eq_zero.1 this with h | h
    · exact absurd h (ne_of_gt hdet)
    · exact h
  have hy : y = 0 := by
    have : (a * d - b * b) * y = 0 := by
      have e : (a * d - b * b) * y
          = a * (b * x + d * y + 0 * z) - b * (a * x + b * y + 0 * z) := by ring
      rw [e, h1, h2]; ring
    rcases mul_eq_zero.1 this with h | h
    · exact absurd h (ne_of_gt hdet)
    · exact h
  rw [hx, hy] at hu
  have hz : (z - 1) * (z + 1) = 0 := by linarith
  rcases mul_eq_zero.1 hz with h | h
  · left
    have : z = 1 := by linarith
    simp [hx, hy, this]
  · right
    have : z = -1 := by linarith
    simp [hx, hy, this]

theorem resolveRef_up (n : Vector3d) (h : n = ⟨0, 0, 1⟩ ∨ n = ⟨0, 0, -1⟩) :
    resolveRef ⟨0, 0, 1⟩ n = ⟨0, 0, 1⟩ := by
  rcases h with h | h <;> subst h <;>
    norm_num [resolveRef, normIsZero, Vector3d.squaredNorm, Vector3d.dot, Vector3d.neg]

/-- The candidate of a planar patch.  When all points lie in the plane `z = 0`,
the neighbours are all points, the accumulators start from zero, the points
are not all on one line and the solver meets its contract on the covariance
matrix, the candidate of every point is `(0, 0, 1)` or `(0, 0, -1)`. -/
theorem candidate_planar {P : Type} (K : Collaborators P) (search_param : P)
    (points : List Vector3d)
    (hplane : ∀ p ∈ points, p.z = 0)
    (hall : ∀ query, K.Search points query search_param = allIndices points)
    (hdet : 0 < specCovariance points (allIndices points) 0 0
                * specCovariance points (allIndices points) 1 1
              - specCovariance points (allIndices points) 0 1
                * specCovariance points (allIndices points) 0 1)
    (hsolver : ∀ M, covarianceMatrix Cumulants.Zero ⟨points, []⟩ (allIndices points) = some M →
      IsLeastUnitEigenvector M (K.eigenvectorsCol0 M))
    (i : Nat) (hi : i < points.length) :
    ∃ n, candidate K Cumulants.Zero search_param points i = some n ∧
      (n = ⟨0, 0, 1⟩ ∨ n = ⟨0, 0, -1⟩) := by
  have hS : SearchInRange K search_param points := by
    intro q j hj
    rw [hall q] at hj
    exact allIndices_inRange points j hj
  have hq : (⟨points, []⟩ : PointCloud).points_[i]? = some points[i] :=
    List.getElem?_eq_getElem hi
  have hne : K.Search points points[i] search_param ≠ [] := by
    rw [hall]
    intro h
    have hlen : (allIndices points).length = points.length := by simp [allIndices]
    rw [h] at hlen
    simp only [List.length_nil] at hlen
    omega
  obtain ⟨M, hM, hc⟩ := candidate_of_nonempty K Cumulants.Zero search_param ⟨points, []⟩ hS i
    points[i] hq hne
  simp only [hall] at hM
  obtain ⟨M2, hM2, hcoeff⟩ := covarianceMatrix_zero_init ⟨points, []⟩ (allIndices points)
    (allIndices_inRange points)
  rw [hM] at hM2
  cases hM2
  refine ⟨_, hc, ?_⟩
  have hsol := hsolver M hM
  have h00 : M.m00 = specCovariance points (allIndices points) 0 0 := hcoeff 0 0
  have h01 : M.m01 = specCovariance points (allIndices points) 0 1 := hcoeff 0 1
  have h10 : M.m10 = specCovariance points (allIndices points) 1 0 := hcoeff 1 0
  have h11 : M.m11 = specCovariance points (allIndices points) 1 1 := hcoeff 1 1
  have h02 : M.m02 = 0 := (hcoeff 0 2).trans (specCovariance_planar points _ hplane 0).1
  have h12 : M.m12 = 0 := (hcoeff 1 2).trans (specCovariance_planar points _ hplane 1).1
  have h20 : M.m20 = 0 := (hcoeff 2 0).trans (specCovariance_planar points _ hplane 0).2
  have h21 : M.m21 = 0 := (hcoeff 2 1).trans (specCovariance_planar points _ hplane 1).2
  have h22 : M.m22 = 0 := (hcoeff 2 2).trans (specCovariance_planar points _ hplane 2).1
  have hsym : M.m10 = M.m01 := by
    have := covarianceMatrix_eq Cumulants.Zero ⟨points, []⟩ (allIndices points)
      (allIndices_inRange points)
    rw [hM] at this
    cases this
    rfl
  have hMeq : M = ⟨M.m00, M.m01, 0, M.m01, M.m11, 0, 0, 0, 0⟩ := by
    cases M
    simp only at h02 h12 h20 h21 h22 hsym
    simp [h02, h12, h20, h21, h22, hsym]
  have ha : 0 ≤ M.m00 := by
    rw [h00]
    exact specCovariance_self_nonneg points _ (allIndices_inRange points) 0
  have hd : 0 < M.m00 * M.m11 - M.m01 * M.m01 := by
    rw [h00, h01, h11]
    exact hdet
  rw [hMeq] at hsol ⊢
  exact planar_least_eigenvector _ _ _ _ ha hd hsol

/-- C10 (as stated, fails): two points on the x axis lie in the plane `z = 0`.
With all points as neighbours and accumulators starting from zero, the
covariance matrix has the single non-zero entry `1` at `(0, 0)`; the solver
vector `(0, 1, 0)` meets the contract on it, so the candidate is `(0, 1, 0)`
and the second overload with reference `(0, 0, 1)` writes `(0, 1, 0)` at every
index. -/
theorem C10_collinear_patch_counterexample :
    (∀ p ∈ segmentCloud.points_, p.z = 0) ∧
    (∀ query, allPointsSearch.Search segmentCloud.points_ query ()
      = allIndices segmentCloud.points_) ∧
    covarianceMatrix Cumulants.Zero segmentCloud (allIndices segmentCloud.points_)
      = some ⟨1, 0, 0, 0, 0, 0, 0, 0, 0⟩ ∧
    IsLeastUnitEigenvector ⟨1, 0, 0, 0, 0, 0, 0, 0, 0⟩
      (allPointsSearch.eigenvectorsCol0 ⟨1, 0, 0, 0, 0, 0, 0, 0, 0⟩) ∧
    candidate allPointsSearch (zeroIndeterminate.cumulants0 0) () segmentCloud.points_ 0
      = some ⟨0, 1, 0⟩ ∧
    EstimateNormalsRef allPointsSearch zeroIndeterminate segmentCloud ⟨0, 0, 1⟩ ()
      = some (true, ⟨segmentCloud.points_, [⟨0, 1, 0⟩, ⟨0, 1, 0⟩]⟩) ∧
    (⟨0, 1, 0⟩ : Vector3d) ≠ ⟨0, 0, 1⟩ ∧ (⟨0, 1, 0⟩ : Vector3d) ≠ ⟨0, 0, -1⟩ := by
  refine ⟨?_, fun _ => rfl, ?_, ?_, ?_, ?_, by decide, by decide⟩
  · intro p hp
    simp only [segmentCloud, List.mem_cons, List.mem_singleton, List.not_mem_nil, or_false] at hp
    rcases hp with h | h <;> rw [h]
  · norm_num [covarianceMatrix, accumulateAll, at?, accumulate, Cumulants.divide, covarianceOf,
      Cumulants.Zero, segmentCloud, allIndices, List.range, List.range.loop]
  · apply isLeastUnitEigenvector_of_kernel
    · norm_num [allPointsSearch, Vector3d.squaredNorm]
    · norm_num [allPointsSearch, Matrix3d.mulVec, Vector3d.Zero]
    · intro w
      simp only [Matrix3d.quadForm, Matrix3d.mulVec, Vector3d.dot]
      nlinarith [mul_self_nonneg w.x]
  · norm_num [candidate, ComputeNormal, covarianceMatrix, accumulateAll, at?, allPointsSearch,
      segmentCloud, allIndices, List.range, List.range.loop]
  · norm_num [EstimateNormalsRef, forLoop, bodyB, ComputeNormal, covarianceMatrix, accumulateAll,
      at?, allPointsSearch, zeroIndeterminate, segmentCloud, PointCloud.HasNormals,
      writeNormal, normIsZero, Vector3d.squaredNorm, Vector3d.dot, resize, allIndices,
      List.range, List.range.loop, List.replicate]

/-- C10 (amended): for points in the plane `z = 0` that are not all on one
line (the `x`-`y` block of their covariance has positive determinant), with
all points as neighbours of every point, accumulators that start from zero and
a solver that meets its contract on the covariance matrix, the candidate of
every point is `(0, 0, 1)` or `(0, 0, -1)`, and the second overload with
reference `(0, 0, 1)` writes exactly `(0, 0, 1)` at every index. -/
theorem C10_planar_patch_normals {P : Type} (K : Collaborators P) (U : Indeterminate)
    (cloud : PointCloud) (search_param : P)
    (hplane : ∀ p ∈ cloud.points_, p.z = 0)
    (hall : ∀ query, K.Search cloud.points_ query search_param = allIndices cloud.points_)
    (hzero : ∀ i, U.cumulants0 i = Cumulants.Zero)
    (hdet : 0 < specCovariance cloud.points_ (allIndices cloud.points_) 0 0
                * specCovariance cloud.points_ (allIndices cloud.points_) 1 1
              - specCovariance cloud.points_ (allIndices cloud.points_) 0 1
                * specCovariance cloud.points_ (allIndices cloud.points_) 0 1)
    (hsolver : ∀ M, covarianceMatrix Cumulants.Zero cloud (allIndices cloud.points_) = some M →
      IsLeastUnitEigenvector M (K.eigenvectorsCol0 M)) :
    ∃ out, EstimateNormalsRef K U cloud ⟨0, 0, 1⟩ search_param = some (true, out) ∧
      out.normals_.length = cloud.points_.length ∧
      ∀ i, i < cloud.points_.length →
        ∃ n, candidate K (U.cumulants0 i) search_param cloud.points_ i = some n ∧
          (n = ⟨0, 0, 1⟩ ∨ n = ⟨0, 0, -1⟩) ∧
          out.normals_[i]? = some ⟨0, 0, 1⟩ := by
  have hS : SearchInRange K search_param cloud.points_ := by
    intro q j hj
    rw [hall q] at hj
    exact allIndices_inRange cloud.points_ j hj
  obtain ⟨out, ho, -, hlen, h⟩ := EstimateNormalsRef_spec K U cloud ⟨0, 0, 1⟩ search_param hS
  refine ⟨out, ho, hlen, fun i hi => ?_⟩
  obtain ⟨n, hn, hw⟩ := h i hi
  obtain ⟨n2, hn2, hcases⟩ := candidate_planar K search_param cloud.points_ hplane hall hdet
    (fun M hM => hsolver M hM) i hi
  rw [hzero i] at hn
  rw [hn] at hn2
  cases hn2
  refine ⟨n, by rw [hzero i]; exact hn, hcases, ?_⟩
  rw [hw, resolveRef_up n hcases]

/-- C10 (amended) at a concrete input: four points of the plane `z = 0` at the
corners of a square, and a solver that returns `(0, 0, -1)`. -/
theorem C10_planar_patch_witness :
    ∃ out, EstimateNormalsRef downwardSearch zeroIndeterminate squareCloud ⟨0, 0, 1⟩ ()
        = some (true, out) ∧
      out.normals_.length = squareCloud.points_.length ∧
      ∀ i, i < squareCloud.points_.length →
        ∃ n, candidate downwardSearch (zeroIndeterminate.cumulants0 i) ()
            squareCloud.points_ i = some n ∧
          (n = ⟨0, 0, 1⟩ ∨ n = ⟨0, 0, -1⟩) ∧
          out.normals_[i]? = some ⟨0, 0, 1⟩ := by
  have hnb : neighborPoints squareCloud.points_ (allIndices squareCloud.points_)
      = squareCloud.points_ := by decide
  have hcov : covarianceMatrix Cumulants.Zero squareCloud (allIndices squareCloud.points_)
      = some ⟨1 / 2, 0, 0, 0, 1 / 2, 0, 0, 0, 0⟩ := by
    rw [covarianceMatrix_eq _ _ _ (allIndices_inRange _), hnb]
    norm_num [addMoments, sumOver, Cumulants.divide, covarianceOf, Cumulants.Zero, squareCloud,
      allIndices]
  apply C10_planar_patch_normals downwardSearch zeroIndeterminate squareCloud ()
  · intro p hp
    simp only [squareCloud, List.mem_cons, List.mem_singleton, List.not_mem_nil, or_false] at hp
    rcases hp with h | h | h | h <;> rw [h]
  · intro _
    rfl
  · intro _
    rfl
  · simp only [specCovariance, hnb]
    norm_num [sumOver, Vector3d.coeff, squareCloud, allIndices]
  · intro M hM
    rw [hcov] at hM
    cases hM
    apply isLeastUnitEigenvector_of_kernel
    · norm_num [downwardSearch, Vector3d.squaredNorm]
    · norm_num [downwardSearch, Matrix3d.mulVec, Vector3d.Zero]
    · intro w
      simp only [Matrix3d.quadForm, Matrix3d.mulVec, Vector3d.dot]
      nlinarith [mul_self_nonneg w.x, mul_self_nonneg w.y]

/-! ## Return value, frame and shape of the result -/

theorem HasNormals_false_of_length_ne (cloud : PointCloud)
    (h : cloud.normals_.length ≠ cloud.points_.length) : cloud.HasNormals = false := by
  simp [PointCloud.HasNormals, h]

theorem forLoop_zero (body : PointCloud → Nat → Option PointCloud) (i : Nat) (c : PointCloud) :
    forLoop body 0 i c = some c := rfl

/-- For a cloud without points neither overload iterates: both return `true`
and leave an empty normal sequence. -/
theorem EstimateNormals_no_points {P : Type} (K : Collaborators P) (U : Indeterminate)
    (normals : List Vector3d) (ref : Vector3d) (search_param : P) :
    EstimateNormals K U ⟨[], normals⟩ search_param = some (true, ⟨[], []⟩) ∧
    EstimateNormalsRef K U ⟨[], normals⟩ ref search_param = some (true, ⟨[], []⟩) := by
  have hN : (⟨[], normals⟩ : PointCloud).HasNormals = false := by
    simp [PointCloud.HasNormals]
  constructor
  · simp [EstimateNormals, hN, resize, forLoop]
  · simp [EstimateNormalsRef, hN, resize, forLoop]

/-- C11 (as stated, fails): neither overload reports a precondition failure.
For a cloud without points (with or without a stray normal) both return
`true`, and the stray normal is dropped; for a cloud of one point that enters
with two normals the first overload returns `true` and replaces the normals by
the single normal `(0, 0, 1)`. -/
theorem C11_invalid_cloud_returns_true :
    EstimateNormals isolatedSearch zeroIndeterminate ⟨[], []⟩ () = some (true, ⟨[], []⟩) ∧
    EstimateNormalsRef isolatedSearch zeroIndeterminate ⟨[], []⟩ ⟨0, 0, 1⟩ ()
      = some (true, ⟨[], []⟩) ∧
    EstimateNormals isolatedSearch zeroIndeterminate pointlessCloud () = some (true, ⟨[], []⟩) ∧
    EstimateNormalsRef isolatedSearch zeroIndeterminate pointlessCloud ⟨0, 0, 1⟩ ()
      = some (true, ⟨[], []⟩) ∧
    pointlessCloud ≠ ⟨[], []⟩ ∧
    EstimateNormals isolatedSearch zeroIndeterminate mismatchedCloud ()
      = some (true, ⟨[⟨3, 4, 5⟩], [⟨0, 0, 1⟩]⟩) ∧
    mismatchedCloud ≠ ⟨[⟨3, 4, 5⟩], [⟨0, 0, 1⟩]⟩ := by
  refine ⟨(EstimateNormals_no_points _ _ _ ⟨0, 0, 1⟩ _).1, (EstimateNormals_no_points _ _ _ _ _).2,
    (EstimateNormals_no_points _ _ _ ⟨0, 0, 1⟩ _).1, (EstimateNormals_no_points _ _ _ _ _).2,
    ?_, ?_, ?_⟩
  · simp [pointlessCloud]
  · norm_num [EstimateNormals, forLoop, bodyA, ComputeNormal, isolatedSearch, zeroIndeterminate,
      mismatchedCloud, PointCloud.HasNormals, writeNormal, normIsZero, Vector3d.squaredNorm,
      Vector3d.Zero, resize]
  · simp [mismatchedCloud]

/-- C11 (amended): the overloads check no precondition.  For a cloud without
points both return `true` without any iteration and leave an empty normal
sequence.  For a cloud whose normal sequence has another length than its point
sequence both return `true`, keep the points, and write at every index a
normal computed as for a cloud without normals. -/
theorem C11_no_precondition_check {P : Type} (K : Collaborators P) (U : Indeterminate)
    (ref : Vector3d) (search_param : P) :
    (∀ normals : List Vector3d,
      EstimateNormals K U ⟨[], normals⟩ search_param = some (true, ⟨[], []⟩) ∧
      EstimateNormalsRef K U ⟨[], normals⟩ ref search_param = some (true, ⟨[], []⟩)) ∧
    (∀ cloud : PointCloud, cloud.normals_.length ≠ cloud.points_.length →
      SearchInRange K search_param cloud.points_ →
      (∃ out, EstimateNormals K U cloud search_param = some (true, out) ∧
        out.points_ = cloud.points_ ∧ out.normals_.length = cloud.points_.length ∧
        ∀ i, i < cloud.points_.length →
          ∃ n, candidate K (U.cumulants0 i) search_param cloud.points_ i = some n ∧
            out.normals_[i]? = some (resolveNoPrior n)) ∧
      (∃ out, EstimateNormalsRef K U cloud ref search_param = some (true, out) ∧
        out.points_ = cloud.points_ ∧ out.normals_.length = cloud.points_.length ∧
        ∀ i, i < cloud.points_.length →
          ∃ n, candidate K (U.cumulants0 i) search_param cloud.points_ i = some n ∧
            out.normals_[i]? = some (resolveRef ref n))) := by
  refine ⟨fun normals => EstimateNormals_no_points K U normals ref search_param, ?_⟩
  intro cloud hlen hS
  exact ⟨EstimateNormals_spec_noPrior K U cloud search_param
      (HasNormals_false_of_length_ne cloud hlen) hS,
    EstimateNormalsRef_spec K U cloud ref search_param hS⟩

/-- C11 (amended) at a concrete input: one point that enters with two
normals. -/
theorem C11_no_precondition_check_witness :
    ∃ out, EstimateNormals isolatedSearch zeroIndeterminate mismatchedCloud () = some (true, out) ∧
      out.points_ = mismatchedCloud.points_ ∧
      out.normals_.length = mismatchedCloud.points_.length ∧
      ∀ i, i < mismatchedCloud.points_.length →
        ∃ n, candidate isolatedSearch (zeroIndeterminate.cumulants0 i) ()
            mismatchedCloud.points_ i = some n ∧
          out.normals_[i]? = some (resolveNoPrior n) :=
  ((C11_no_precondition_check isolatedSearch zeroIndeterminate ⟨0, 0, 1⟩ ()).2 mismatchedCloud
    (by decide) (isolatedSearch_inRange _)).1

/-- C12: both overloads return `true` for every cloud, whatever neighbour lists
the search returns within its contract (empty lists at every point included);
in particular for every cloud with at least one point. -/
theorem C12_always_returns_true {P : Type} (K : Collaborators P) (U : Indeterminate)
    (cloud : PointCloud) (ref : Vector3d) (search_param : P)
    (hS : SearchInRange K search_param cloud.points_) :
    (EstimateNormals K U cloud search_param).map Prod.fst = some true ∧
    (EstimateNormalsRef K U cloud ref search_param).map Prod.fst = some true := by
  constructor
  · cases hN : cloud.HasNormals with
    | true =>
      obtain ⟨out, ho, -⟩ := EstimateNormals_spec_prior K U cloud search_param hN hS
      rw [ho]; rfl
    | false =>
      obtain ⟨out, ho, -⟩ := EstimateNormals_spec_noPrior K U cloud search_param hN hS
      rw [ho]; rfl
  · obtain ⟨out, ho, -⟩ := EstimateNormalsRef_spec K U cloud ref search_param hS
    rw [ho]; rfl

/-- C12 at a concrete input: one point without any neighbour. -/
theorem C12_always_returns_true_witness :
    0 < onePointCloud.points_.length ∧
    (EstimateNormals isolatedSearch zeroIndeterminate onePointCloud ()).map Prod.fst
      = some true ∧
    (EstimateNormalsRef isolatedSearch zeroIndeterminate onePointCloud ⟨1, 0, 0⟩ ()).map Prod.fst
      = some true :=
  ⟨by decide, C12_always_returns_true isolatedSearch zeroIndeterminate onePointCloud ⟨1, 0, 0⟩ ()
    (isolatedSearch_inRange _)⟩

/-- C13: both overloads leave the point sequence as it was: the points of the
cloud after the call are the points of the cloud before it. -/
theorem C13_points_unchanged {P : Type} (K : Collaborators P) (U : Indeterminate)
    (cloud : PointCloud) (ref : Vector3d) (search_param : P)
    (hS : SearchInRange K search_param cloud.points_) :
    (EstimateNormals K U cloud search_param).map (fun r => r.2.points_)
      = some cloud.points_ ∧
    (EstimateNormalsRef K U cloud ref search_param).map (fun r => r.2.points_)
      = some cloud.points_ := by
  constructor
  · cases hN : cloud.HasNormals with
    | true =>
      obtain ⟨out, ho, hp, -⟩ := EstimateNormals_spec_prior K U cloud search_param hN hS
      rw [ho]; simp [hp]
    | false =>
      obtain ⟨out, ho, hp, -⟩ := EstimateNormals_spec_noPrior K U cloud search_param hN hS
      rw [ho]; simp [hp]
  · obtain ⟨out, ho, hp, -⟩ := EstimateNormalsRef_spec K U cloud ref search_param hS
    rw [ho]; simp [hp]

/-- C13 at a concrete input: the two-point cloud with all points as
neighbours. -/
theorem C13_points_unchanged_witness :
    (EstimateNormals allPointsSearch zeroIndeterminate twoPointCloud ()).map
        (fun r => r.2.points_) = some [⟨1, 0, 0⟩, ⟨0, 1, 0⟩] ∧
    (EstimateNormalsRef allPointsSearch zeroIndeterminate twoPointCloud ⟨0, -1, 0⟩ ()).map
        (fun r => r.2.points_) = some [⟨1, 0, 0⟩, ⟨0, 1, 0⟩] :=
  C13_points_unchanged allPointsSearch zeroIndeterminate twoPointCloud ⟨0, -1, 0⟩ ()
    (allPointsSearch_inRange _)

/-- C14: after either overload the normal sequence is as long as the point
sequence and holds at every index the normal resolved for that point: in the
second overload the candidate resolved against the reference; in the first the
candidate resolved against the normal stored there on entry when the cloud had
normals, and against nothing otherwise.  This holds for every cloud, also one
that enters without normals or with a normal sequence of another length. -/
theorem C14_normals_parallel_to_points {P : Type} (K : Collaborators P) (U : Indeterminate)
    (cloud : PointCloud) (ref : Vector3d) (search_param : P)
    (hS : SearchInRange K search_param cloud.points_) :
    (∃ out, EstimateNormals K U cloud search_param = some (true, out) ∧
      out.normals_.length = out.points_.length ∧
      ∀ i, i < out.points_.length →
        ∃ n, candidate K (U.cumulants0 i) search_param cloud.points_ i = some n ∧
          out.normals_[i]? = some
            (if cloud.HasNormals then resolvePrior (cloud.normals_.getD i Vector3d.Zero) n
             else resolveNoPrior n)) ∧
    (∃ out, EstimateNormalsRef K U cloud ref search_param = some (true, out) ∧
      out.normals_.length = out.points_.length ∧
      ∀ i, i < out.points_.length →
        ∃ n, candidate K (U.cumulants0 i) search_param cloud.points_ i = some n ∧
          out.normals_[i]? = some (resolveRef ref n)) := by
  constructor
  · cases hN : cloud.HasNormals with
    | true =>
      obtain ⟨out, ho, hp, hl, h⟩ := EstimateNormals_spec_prior K U cloud search_param hN hS
      refine ⟨out, ho, by rw [hl, hp], fun i hi => ?_⟩
      rw [hp] at hi
      obtain ⟨n, old, hn, hold, hw⟩ := h i hi
      refine ⟨n, hn, ?_⟩
      rw [hw]
      simp [List.getD, hold]
    | false =>
      obtain ⟨out, ho, hp, hl, h⟩ := EstimateNormals_spec_noPrior K U cloud search_param hN hS
      refine ⟨out, ho, by rw [hl, hp], fun i hi => ?_⟩
      rw [hp] at hi
      obtain ⟨n, hn, hw⟩ := h i hi
      exact ⟨n, hn, by rw [hw]; simp⟩
  · obtain ⟨out, ho, hp, hl, h⟩ := EstimateNormalsRef_spec K U cloud ref search_param hS
    refine ⟨out, ho, by rw [hl, hp], fun i hi => ?_⟩
    rw [hp] at hi
    exact h i hi

/-- C14 at a concrete input: one point that enters with two normals; second
overload. -/
theorem C14_normals_parallel_witness :
    ∃ out, EstimateNormalsRef isolatedSearch zeroIndeterminate mismatchedCloud ⟨1, 0, 0⟩ ()
        = some (true, out) ∧
      out.normals_.length = out.points_.length ∧
      ∀ i, i < out.points_.length →
        ∃ n, candidate isolatedSearch (zeroIndeterminate.cumulants0 i) ()
            mismatchedCloud.points_ i = some n ∧
          out.normals_[i]? = some (resolveRef ⟨1, 0, 0⟩ n) :=
  (C14_normals_parallel_to_points isolatedSearch zeroIndeterminate mismatchedCloud ⟨1, 0, 0⟩ ()
    (isolatedSearch_inRange _)).2

/-! ## Covariance identities for accumulators that start from zero -/

theorem sumOver_dev_mul (f g : Vector3d → ℚ) (ma mb : ℚ) (l : List Vector3d) :
    sumOver (fun p => (f p - ma) * (g p - mb)) l
      = sumOver (fun p => f p * g p) l - mb * sumOver f l - ma * sumOver g l
        + (l.length : ℚ) * (ma * mb) := by
  induction l with
  | nil => simp [sumOver_nil]
  | cons p l ih =>
    simp only [sumOver_cons, ih, List.length_cons, Nat.cast_succ]
    ring

theorem sumOver_add_const (f : Vector3d → ℚ) (a : ℚ) (l : List Vector3d) :
    sumOver (fun p => f p + a) l = sumOver f l + (l.length : ℚ) * a := by
  induction l with
  | nil => simp [sumOver_nil]
  | cons p l ih =>
    simp only [sumOver_cons, ih, List.length_cons, Nat.cast_succ]
    ring

theorem sumOver_add_const_mul (f g : Vector3d → ℚ) (a b : ℚ) (l : List Vector3d) :
    sumOver (fun p => (f p + a) * (g p + b)) l
      = sumOver (fun p => f p * g p) l + b * sumOver f l + a * sumOver g l
        + (l.length : ℚ) * (a * b) := by
  induction l with
  | nil => simp [sumOver_nil]
  | cons p l ih =>
    simp only [sumOver_cons, ih, List.length_cons, Nat.cast_succ]
    ring

theorem sumOver_map (f : Vector3d → ℚ) (g : Vector3d → Vector3d) (l : List Vector3d) :
    sumOver f (l.map g) = sumOver (fun p => f (g p)) l := by
  simp [sumOver, List.map_map, Function.comp_def]

/-- The two-pass covariance of the specification equals its raw-moments
covariance, entry for entry. -/
theorem twoPassCovariance_eq_specCovariance (points : List Vector3d) (indices : List Int)
    (h : ∀ j ∈ indices, 0 ≤ j ∧ j < (points.length : Int)) (a b : Fin 3) :
    twoPassCovariance points indices a b = specCovariance points indices a b := by
  have hlen := neighborPoints_length points indices h
  simp only [twoPassCovariance, specCovariance, centroid, sumOver_dev_mul, hlen]
  by_cases hn : (indices.length : ℚ) = 0
  · simp [hn]
  · field_simp
    ring

/-- With accumulators that start from zero, the matrix handed to the solver is
the two-pass covariance of the neighbour points. -/
theorem covarianceMatrix_zero_init_twoPass (cloud : PointCloud) (indices : List Int)
    (h : ∀ j ∈ indices, 0 ≤ j ∧ j < (cloud.points_.length : Int)) :
    ∃ M, covarianceMatrix Cumulants.Zero cloud indices = some M ∧
      ∀ a b, M.coeff a b = twoPassCovariance cloud.points_ indices a b := by
  obtain ⟨M, hM, hc⟩ := covarianceMatrix_zero_init cloud indices h
  exact ⟨M, hM, fun a b => by
    rw [hc a b, twoPassCovariance_eq_specCovariance cloud.points_ indices h a b]⟩

/-- C15 (fails on the code): for the neighbours `(2, 0, 0)` and `(4, 0, 0)`
and accumulators whose first coefficient holds `2` when the loop starts, the
entry `(0, 0)` of the matrix handed to the solver is `-6`, while the two-pass
covariance of the two neighbours is `1`. -/
theorem C15_raw_moments_differ_from_two_pass :
    covarianceMatrix ⟨2, 0, 0, 0, 0, 0, 0, 0, 0⟩ ⟨[⟨2, 0, 0⟩, ⟨4, 0, 0⟩], []⟩ [0, 1]
      = some ⟨-6, 0, 0, 0, 0, 0, 0, 0, 0⟩ ∧
    (⟨-6, 0, 0, 0, 0, 0, 0, 0, 0⟩ : Matrix3d).coeff 0 0 = -6 ∧
    twoPassCovariance [⟨2, 0, 0⟩, ⟨4, 0, 0⟩] [0, 1] 0 0 = 1 := by
  refine ⟨?_, rfl, ?_⟩
  · norm_num [covarianceMatrix, accumulateAll, at?, accumulate, Cumulants.divide, covarianceOf]
  · norm_num [twoPassCovariance, centroid, neighborPoints, at?, sumOver, Vector3d.coeff,
      List.filterMap_cons]

/-! ## Translation -/

theorem at?_map (f : Vector3d → Vector3d) (v : List Vector3d) (j : Int) :
    at? (v.map f) j = (at? v j).map f := by
  unfold at?
  split
  · simp [List.getElem?_map]
  · rfl

theorem neighborPoints_translate (t : Vector3d) (points : List Vector3d) (indices : List Int) :
    neighborPoints (translate t points) indices
      = (neighborPoints points indices).map (fun p => p.add t) := by
  induction indices with
  | nil => rfl
  | cons j js ih =>
    simp only [neighborPoints, translate, at?_map] at ih
    simp only [neighborPoints, List.filterMap_cons, translate, at?_map]
    cases hp : at? points j with
    | none =>
      simp only [Option.map_none']
      exact ih
    | some p =>
      simp only [Option.map_some', List.map_cons]
      rw [ih]

theorem coeff_add (p t : Vector3d) (a : Fin 3) : (p.add t).coeff a = p.coeff a + t.coeff a := by
  fin_cases a <;> rfl

theorem translate_inRange (t : Vector3d) (points : List Vector3d) (indices : List Int)
    (h : ∀ j ∈ indices, 0 ≤ j ∧ j < (points.length : Int)) :
    ∀ j ∈ indices, 0 ≤ j ∧ j < ((translate t points).length : Int) := by
  simpa [translate] using h

/-- The raw-moments covariance of the specification does not change when every
point is moved by the same offset. -/
theorem specCovariance_translate (t : Vector3d) (points : List Vector3d) (indices : List Int)
    (h : ∀ j ∈ indices, 0 ≤ j ∧ j < (points.length : Int)) (a b : Fin 3) :
    specCovariance (translate t points) indices a b = specCovariance points indices a b := by
  have hlen := neighborPoints_length points indices h
  simp only [specCovariance, neighborPoints_translate, sumOver_map, coeff_add,
    sumOver_add_const, sumOver_add_const_mul, hlen]
  by_cases hn : (indices.length : ℚ) = 0
  · simp [hn]
  · field_simp
    ring

/-- With accumulators that start from zero, the matrix handed to the solver is
the same for a cloud and for the cloud moved by an offset. -/
theorem covarianceMatrix_zero_init_translate (t : Vector3d) (points : List Vector3d)
    (indices : List Int)
    (h : ∀ j ∈ indices, 0 ≤ j ∧ j < (points.length : Int)) :
    ∃ M, covarianceMatrix Cumulants.Zero ⟨points, []⟩ indices = some M ∧
      ∃ Mt, covarianceMatrix Cumulants.Zero ⟨translate t points, []⟩ indices = some Mt ∧
        ∀ a b, Mt.coeff a b = M.coeff a b := by
  obtain ⟨M, hM, hc⟩ := covarianceMatrix_zero_init ⟨points, []⟩ indices h
  obtain ⟨Mt, hMt, hct⟩ := covarianceMatrix_zero_init ⟨translate t points, []⟩ indices
    (translate_inRange t points indices h)
  exact ⟨M, hM, Mt, hMt, fun a b => by
    rw [hct a b, hc a b]
    exact specCovariance_translate t points indices h a b⟩

/-- C19 (fails on the code): for the single neighbour `(1, 0, 0)` and
accumulators whose first coefficient holds `1` when the loop starts, entry
`(0, 0)` of the matrix is `-3`; after moving the point by `(1, 0, 0)`, with the
same accumulator content, it is `-5`. -/
theorem C19_translation_changes_covariance :
    covarianceMatrix ⟨1, 0, 0, 0, 0, 0, 0, 0, 0⟩ ⟨[⟨1, 0, 0⟩], []⟩ [0]
      = some ⟨-3, 0, 0, 0, 0, 0, 0, 0, 0⟩ ∧
    translate ⟨1, 0, 0⟩ [⟨1, 0, 0⟩] = [⟨2, 0, 0⟩] ∧
    covarianceMatrix ⟨1, 0, 0, 0, 0, 0, 0, 0, 0⟩ ⟨translate ⟨1, 0, 0⟩ [⟨1, 0, 0⟩], []⟩ [0]
      = some ⟨-5, 0, 0, 0, 0, 0, 0, 0, 0⟩ ∧
    (⟨-3, 0, 0, 0, 0, 0, 0, 0, 0⟩ : Matrix3d) ≠ ⟨-5, 0, 0, 0, 0, 0, 0, 0, 0⟩ := by
  refine ⟨?_, ?_, ?_, ?_⟩
  · norm_num [covarianceMatrix, accumulateAll, at?, accumulate, Cumulants.divide, covarianceOf]
  · norm_num [translate, Vector3d.add]
  · norm_num [covarianceMatrix, accumulateAll, at?, accumulate, Cumulants.divide, covarianceOf,
      translate, Vector3d.add]
  · intro h
    have := congrArg Matrix3d.m00 h
    norm_num at this

/-! ## Positive semidefiniteness -/

theorem sumOver_dot (v : Vector3d) (l : List Vector3d) :
    sumOver (fun p => v.dot p) l
      = v.x * sumOver (fun p => p.x) l + v.y * sumOver (fun p => p.y) l
        + v.z * sumOver (fun p => p.z) l := by
  induction l with
  | nil => simp [sumOver_nil]
  | cons p l ih =>
    simp only [sumOver_cons, ih]
    simp only [Vector3d.dot]
    ring

theorem sumOver_dot_sq (v : Vector3d) (l : List Vector3d) :
    sumOver (fun p => v.dot p * v.dot p) l
      = v.x * v.x * sumOver (fun p => p.x * p.x) l
        + v.y * v.y * sumOver (fun p => p.y * p.y) l
        + v.z * v.z * sumOver (fun p => p.z * p.z) l
        + 2 * (v.x * v.y) * sumOver (fun p => p.x * p.y) l
        + 2 * (v.x * v.z) * sumOver (fun p => p.x * p.z) l
        + 2 * (v.y * v.z) * sumOver (fun p => p.y * p.z) l := by
  induction l with
  | nil => simp [sumOver_nil]
  | cons p l ih =>
    simp only [sumOver_cons, ih]
    simp only [Vector3d.dot]
    ring

/-- A mean of squares is at least the square of the mean. -/
theorem variance_nonneg (f : Vector3d → ℚ) (l : List Vector3d) :
    0 ≤ (1 / (l.length : ℚ)) * sumOver (fun p => f p * f p) l
      - ((1 / (l.length : ℚ)) * sumOver f l) * ((1 / (l.length : ℚ)) * sumOver f l) := by
  by_cases hn : (l.length : ℚ) = 0
  · simp [hn]
  · have hpos : (0 : ℚ) < (l.length : ℚ) := lt_of_le_of_ne (Nat.cast_nonneg _) (Ne.symm hn)
    have hdev := sumOver_sq_dev f ((1 / (l.length : ℚ)) * sumOver f l) l
    have hnn := sumOver_nonneg
      (fun p => (f p - (1 / (l.length : ℚ)) * sumOver f l)
        * (f p - (1 / (l.length : ℚ)) * sumOver f l)) l (fun p _ => mul_self_nonneg _)
    rw [hdev] at hnn
    have key : (1 / (l.length : ℚ)) * sumOver (fun p => f p * f p) l
        - ((1 / (l.length : ℚ)) * sumOver f l) * ((1 / (l.length : ℚ)) * sumOver f l)
        = (1 / (l.length : ℚ)) *
          (sumOver (fun p => f p * f p) l
            - 2 * ((1 / (l.length : ℚ)) * sumOver f l) * sumOver f l
            + (l.length : ℚ) *
              (((1 / (l.length : ℚ)) * sumOver f l) * ((1 / (l.length : ℚ)) * sumOver f l))) := by
      field_simp
      ring
    rw [key]
    exact mul_nonneg (le_of_lt (one_div_pos.2 hpos)) hnn

/-- With accumulators that start from zero, the matrix handed to the solver is
positive semidefinite. -/
theorem covarianceMatrix_zero_init_psd (cloud : PointCloud) (indices : List Int)
    (h : ∀ j ∈ indices, 0 ≤ j ∧ j < (cloud.points_.length : Int)) :
    ∃ M, covarianceMatrix Cumulants.Zero cloud indices = some M ∧
      ∀ v, 0 ≤ M.quadForm v := by
  refine ⟨_, covarianceMatrix_eq _ _ _ h, fun v => ?_⟩
  have hlen := neighborPoints_length cloud.points_ indices h
  have hvar := variance_nonneg (fun p => v.dot p) (neighborPoints cloud.points_ indices)
  rw [sumOver_dot, sumOver_dot_sq, hlen] at hvar
  have key : (covarianceOf ((addMoments Cumulants.Zero
        (neighborPoints cloud.points_ indices)).divide (indices.length : ℚ))).quadForm v
      = (1 / (indices.length : ℚ)) *
          (v.x * v.x * sumOver (fun p => p.x * p.x) (neighborPoints cloud.points_ indices)
            + v.y * v.y * sumOver (fun p => p.y * p.y) (neighborPoints cloud.points_ indices)
            + v.z * v.z * sumOver (fun p => p.z * p.z) (neighborPoints cloud.points_ indices)
            + 2 * (v.x * v.y) * sumOver (fun p => p.x * p.y) (neighborPoints cloud.points_ indices)
            + 2 * (v.x * v.z) * sumOver (fun p => p.x * p.z) (neighborPoints cloud.points_ indices)
            + 2 * (v.y * v.z) * sumOver (fun p => p.y * p.z) (neighborPoints cloud.points_ indices))
        - ((1 / (indices.length : ℚ)) *
            (v.x * sumOver (fun p => p.x) (neighborPoints cloud.points_ indices)
              + v.y * sumOver (fun p => p.y) (neighborPoints cloud.points_ indices)
              + v.z * sumOver (fun p => p.z) (neighborPoints cloud.points_ indices)))
          * ((1 / (indices.length : ℚ)) *
            (v.x * sumOver (fun p => p.x) (neighborPoints cloud.points_ indices)
              + v.y * sumOver (fun p => p.y) (neighborPoints cloud.points_ indices)
              + v.z * sumOver (fun p => p.z) (neighborPoints cloud.points_ indices))) := by
    simp only [Matrix3d.quadForm, Matrix3d.mulVec, Vector3d.dot, covarianceOf, Cumulants.divide,
      addMoments, Cumulants.Zero]
    ring
  rw [key]
  exact hvar

theorem sumOver_const (f : Vector3d → ℚ) (c : ℚ) (l : List Vector3d) (h : ∀ p ∈ l, f p = c) :
    sumOver f l = (l.length : ℚ) * c := by
  induction l with
  | nil => simp [sumOver_nil]
  | cons p l ih =>
    rw [sumOver_cons, h p (by simp), ih (fun q hq => h q (by simp [hq]))]
    simp only [List.length_cons, Nat.cast_succ]
    ring

/-- With accumulators that start from zero, the matrix handed to the solver is
the zero matrix when all neighbour points coincide. -/
theorem covarianceMatrix_zero_init_coincident (cloud : PointCloud) (indices : List Int)
    (h : ∀ j ∈ indices, 0 ≤ j ∧ j < (cloud.points_.length : Int))
    (q : Vector3d) (hq : ∀ p ∈ neighborPoints cloud.points_ indices, p = q) :
    ∃ M, covarianceMatrix Cumulants.Zero cloud indices = some M ∧
      ∀ a b, M.coeff a b = 0 := by
  obtain ⟨M, hM, hc⟩ := covarianceMatrix_zero_init cloud indices h
  refine ⟨M, hM, fun a b => ?_⟩
  have hlen := neighborPoints_length cloud.points_ indices h
  rw [hc a b]
  simp only [specCovariance]
  rw [sumOver_const (fun p => p.coeff a * p.coeff b) (q.coeff a * q.coeff b) _
      (fun p hp => by rw [hq p hp]),
    sumOver_const (fun p => p.coeff a) (q.coeff a) _ (fun p hp => by rw [hq p hp]),
    sumOver_const (fun p => p.coeff b) (q.coeff b) _ (fun p hp => by rw [hq p hp]), hlen]
  by_cases hn : (indices.length : ℚ) = 0
  · simp [hn]
  · field_simp

/-- C20 (fails on the code): for the single neighbour `(0, 1, 0)` and
accumulators whose second coefficient holds `1` when the loop starts, the
matrix handed to the solver has the diagonal entry `-3` at `(1, 1)`, its
quadratic form at `(0, 1, 0)` is `-3`, and it is not the zero matrix although
there is one neighbour only. -/
theorem C20_covariance_not_positive_semidefinite :
    covarianceMatrix ⟨0, 1, 0, 0, 0, 0, 0, 0, 0⟩ ⟨[⟨0, 1, 0⟩], []⟩ [0]
      = some ⟨0, 0, 0, 0, -3, 0, 0, 0, 0⟩ ∧
    (⟨0, 0, 0, 0, -3, 0, 0, 0, 0⟩ : Matrix3d).quadForm ⟨0, 1, 0⟩ = -3 ∧
    (⟨0, 0, 0, 0, -3, 0, 0, 0, 0⟩ : Matrix3d).coeff 1 1 = -3 ∧
    (⟨0, 0, 0, 0, -3, 0, 0, 0, 0⟩ : Matrix3d) ≠ ⟨0, 0, 0, 0, 0, 0, 0, 0, 0⟩ := by
  refine ⟨?_, ?_, rfl, ?_⟩
  · norm_num [covarianceMatrix, accumulateAll, at?, accumulate, Cumulants.divide, covarianceOf]
  · norm_num [Matrix3d.quadForm, Matrix3d.mulVec, Vector3d.dot]
  · intro h
    have := congrArg Matrix3d.m11 h
    norm_num at this

/-! ## The snapshot formulation -/

theorem snapshotNormals_spec {P : Type} (K : Collaborators P) (U : Indeterminate)
    (search_param : P) (points snapshot : List Vector3d) (has_normal : Bool)
    (f : Nat → Vector3d) (k i : Nat)
    (h : ∀ j, i ≤ j → j < i + k →
      snapshotNormal K U search_param points snapshot has_normal j = some (f j)) :
    ∃ l, snapshotNormals K U search_param points snapshot has_normal k i = some l ∧
      l.length = k ∧ ∀ j, j < k → l[j]? = some (f (i + j)) := by
  induction k generalizing i with
  | zero => exact ⟨[], rfl, rfl, fun j hj => absurd hj (Nat.not_lt_zero j)⟩
  | succ k ih =>
    obtain ⟨l, hl, hlen, hget⟩ := ih (i + 1) (fun j h1 h2 => h j (by omega) (by omega))
    refine ⟨f i :: l, ?_, by simp [hlen], ?_⟩
    · simp [snapshotNormals, h i (Nat.le_refl i) (by omega), hl]
    · intro j hj
      cases j with
      | zero => simp
      | succ j =>
        simp only [List.getElem?_cons_succ]
        rw [hget j (by omega)]
        congr 2
        omega

/-- The in-place loop of the first overload computes what the snapshot
formulation computes. -/
theorem EstimateNormals_eq_snapshot {P : Type} (K : Collaborators P) (U : Indeterminate)
    (cloud : PointCloud) (search_param : P)
    (hS : SearchInRange K search_param cloud.points_) :
    ∃ out, EstimateNormals K U cloud search_param = some (true, out) ∧
      EstimateNormalsSnapshot K U cloud search_param = some (true, out) := by
  cases hN : cloud.HasNormals with
  | true =>
    obtain ⟨out, ho, hp, hl, h⟩ := EstimateNormals_spec_prior K U cloud search_param hN hS
    refine ⟨out, ho, ?_⟩
    have hlen : cloud.normals_.length = cloud.points_.length := by
      simp [PointCloud.HasNormals] at hN
      exact hN.2
    obtain ⟨l, hl1, hl2, hl3⟩ := snapshotNormals_spec K U search_param cloud.points_
      cloud.normals_ true (fun j => (out.normals_[j]?).getD Vector3d.Zero)
      cloud.points_.length 0 (fun j _ hj => by
        obtain ⟨n, old, hn, hold, hw⟩ := h j (by omega)
        simp [snapshotNormal, hn, hold, hw])
    have hnorm : l = out.normals_ := by
      apply List.ext_getElem?
      intro j
      by_cases hj : j < cloud.points_.length
      · rw [hl3 j hj]
        obtain ⟨n, old, hn, hold, hw⟩ := h j hj
        simp [hw]
      · rw [List.getElem?_eq_none (by omega), List.getElem?_eq_none (by omega)]
    have hout : (⟨cloud.points_, l⟩ : PointCloud) = out := by
      cases out
      simp only at hp hnorm
      simp [hp, hnorm]
    simp [EstimateNormalsSnapshot, hN, hl1, hout]
  | false =>
    obtain ⟨out, ho, hp, hl, h⟩ := EstimateNormals_spec_noPrior K U cloud search_param hN hS
    refine ⟨out, ho, ?_⟩
    obtain ⟨l, hl1, hl2, hl3⟩ := snapshotNormals_spec K U search_param cloud.points_
      cloud.normals_ false (fun j => (out.normals_[j]?).getD Vector3d.Zero)
      cloud.points_.length 0 (fun j _ hj => by
        obtain ⟨n, hn, hw⟩ := h j (by omega)
        simp [snapshotNormal, hn, hw])
    have hnorm : l = out.normals_ := by
      apply List.ext_getElem?
      intro j
      by_cases hj : j < cloud.points_.length
      · rw [hl3 j hj]
        obtain ⟨n, hn, hw⟩ := h j hj
        simp [hw]
      · rw [List.getElem?_eq_none (by omega), List.getElem?_eq_none (by omega)]
    have hout : (⟨cloud.points_, l⟩ : PointCloud) = out := by
      cases out
      simp only at hp hnorm
      simp [hp, hnorm]
    simp [EstimateNormalsSnapshot, hN, hl1, hout]

/-- C16: the in-place sequential loop of the first overload is equivalent to
the snapshot formulation.  For a cloud that has normals on entry both are
defined and give the same cloud, and the normal at every index is the
candidate of that point resolved against entry `i` of the normal array as it
was before the loop, never against a normal written earlier in the pass. -/
theorem C16_in_place_equals_snapshot {P : Type} (K : Collaborators P) (U : Indeterminate)
    (cloud : PointCloud) (search_param : P)
    (hN : cloud.HasNormals = true)
    (hS : SearchInRange K search_param cloud.points_) :
    ∃ out, EstimateNormals K U cloud search_param = some (true, out) ∧
      EstimateNormalsSnapshot K U cloud search_param = some (true, out) ∧
      ∀ i, i < cloud.points_.length →
        ∃ n old, candidate K (U.cumulants0 i) search_param cloud.points_ i = some n ∧
          cloud.normals_[i]? = some old ∧
          out.normals_[i]? = some (resolvePrior old n) ∧
          snapshotNormal K U search_param cloud.points_ cloud.normals_ true i
            = some (resolvePrior old n) := by
  obtain ⟨out, ho, hs⟩ := EstimateNormals_eq_snapshot K U cloud search_param hS
  obtain ⟨out2, ho2, -, -, h⟩ := EstimateNormals_spec_prior K U cloud search_param hN hS
  rw [ho] at ho2
  cases ho2
  refine ⟨out, ho, hs, fun i hi => ?_⟩
  obtain ⟨n, old, hn, hold, hw⟩ := h i hi
  exact ⟨n, old, hn, hold, hw, by simp [snapshotNormal, hn, hold]⟩

/-- C16 at a concrete input: the two-point cloud with prior normals, all
points as neighbours. -/
theorem C16_in_place_equals_snapshot_witness :
    ∃ out, EstimateNormals allPointsSearch zeroIndeterminate twoPointCloud () = some (true, out) ∧
      EstimateNormalsSnapshot allPointsSearch zeroIndeterminate twoPointCloud ()
        = some (true, out) ∧
      ∀ i, i < twoPointCloud.points_.length →
        ∃ n old, candidate allPointsSearch (zeroIndeterminate.cumulants0 i) ()
            twoPointCloud.points_ i = some n ∧
          twoPointCloud.normals_[i]? = some old ∧
          out.normals_[i]? = some (resolvePrior old n) ∧
          snapshotNormal allPointsSearch zeroIndeterminate () twoPointCloud.points_
            twoPointCloud.normals_ true i = some (resolvePrior old n) :=
  C16_in_place_equals_snapshot allPointsSearch zeroIndeterminate twoPointCloud ()
    (by decide) (allPointsSearch_inRange _)

/-! ## Running the first overload twice -/

theorem dot_neg_right (v w : Vector3d) : v.dot (w.neg) = -(v.dot w) := by
  simp only [Vector3d.dot, Vector3d.neg]
  ring

theorem dot_self_pos (v : Vector3d) (h : v ≠ Vector3d.Zero) : 0 < v.dot v := by
  have h0 : v.squaredNorm ≠ 0 := fun h0 => h ((squaredNorm_eq_zero_iff v).1 h0)
  have h1 : ¬ v.dot v < 0 := dot_self_nonneg v
  have h2 : v.dot v = v.squaredNorm := rfl
  rw [h2] at h1 ⊢
  exact lt_of_le_of_ne (not_lt.1 h1) (Ne.symm h0)

/-- Resolving a candidate against a normal that is already the candidate up to
sign, or resolving a zero candidate, returns that normal. -/
theorem resolvePrior_fix (w n : Vector3d) (h : n = Vector3d.Zero ∨ w = n ∨ w = n.neg) :
    resolvePrior w n = w := by
  by_cases hz : n = Vector3d.Zero
  · rw [hz, resolvePrior_Zero]
  · rcases h with h | h | h
    · exact absurd h hz
    · subst h
      simp [resolvePrior, normIsZero_of_ne _ hz, dot_self_nonneg]
    · subst h
      have hpos := dot_self_pos n hz
      have hneg : n.dot n.neg < 0 := by
        rw [dot_neg_right]
        linarith
      simp [resolvePrior, normIsZero_of_ne _ hz, hneg]

/-- What the first overload writes, whether or not the cloud had normals: at
every index the candidate up to sign, unless the candidate is zero. -/
theorem EstimateNormals_spec_any {P : Type} (K : Collaborators P) (U : Indeterminate)
    (cloud : PointCloud) (search_param : P)
    (hS : SearchInRange K search_param cloud.points_) :
    ∃ out, EstimateNormals K U cloud search_param = some (true, out) ∧
      out.points_ = cloud.points_ ∧ out.normals_.length = cloud.points_.length ∧
      ∀ i, i < cloud.points_.length →
        ∃ n w, candidate K (U.cumulants0 i) search_param cloud.points_ i = some n ∧
          out.normals_[i]? = some w ∧ (n = Vector3d.Zero ∨ w = n ∨ w = n.neg) := by
  cases hN : cloud.HasNormals with
  | true =>
    obtain ⟨out, ho, hp, hl, h⟩ := EstimateNormals_spec_prior K U cloud search_param hN hS
    refine ⟨out, ho, hp, hl, fun i hi => ?_⟩
    obtain ⟨n, old, hn, -, hw⟩ := h i hi
    refine ⟨n, _, hn, hw, ?_⟩
    by_cases hz : n = Vector3d.Zero
    · exact Or.inl hz
    · exact Or.inr (resolvePrior_cases old n hz)
  | false =>
    obtain ⟨out, ho, hp, hl, h⟩ := EstimateNormals_spec_noPrior K U cloud search_param hN hS
    refine ⟨out, ho, hp, hl, fun i hi => ?_⟩
    obtain ⟨n, hn, hw⟩ := h i hi
    refine ⟨n, _, hn, hw, ?_⟩
    by_cases hz : n = Vector3d.Zero
    · exact Or.inl hz
    · exact Or.inr (Or.inl (resolveNoPrior_of_ne n hz))

/-- When the second run of the first overload reads the same accumulator
contents as the first run, it reproduces the result of the first run. -/
theorem EstimateNormals_rerun_same_cumulants {P : Type} (K : Collaborators P)
    (g : Nat → Cumulants) (fill1 fill2 : Vector3d)
    (cloud : PointCloud) (search_param : P)
    (hS : SearchInRange K search_param cloud.points_) :
    ∃ out, EstimateNormals K ⟨g, fill1⟩ cloud search_param = some (true, out) ∧
      EstimateNormals K ⟨g, fill2⟩ out search_param = some (true, out) := by
  obtain ⟨out, ho, hp, hl, h⟩ := EstimateNormals_spec_any K ⟨g, fill1⟩ cloud search_param hS
  refine ⟨out, ho, ?_⟩
  by_cases hpos : 0 < cloud.points_.length
  · have hN : out.HasNormals = true := by
      simp [PointCloud.HasNormals, hp, hl, hpos]
    have hS2 : SearchInRange K search_param out.points_ := by rw [hp]; exact hS
    obtain ⟨out2, ho2, hp2, hl2, h2⟩ :=
      EstimateNormals_spec_prior K ⟨g, fill2⟩ out search_param hN hS2
    have hnorm : out2.normals_ = out.normals_ := by
      apply List.ext_getElem?
      intro i
      by_cases hi : i < cloud.points_.length
      · obtain ⟨n, w, hn, hw, hcase⟩ := h i hi
        obtain ⟨n2, old, hn2, hold, hw2⟩ := h2 i (by rw [hp]; exact hi)
        simp only at hn hn2
        rw [hp, hn] at hn2
        cases hn2
        rw [hw] at hold
        cases hold
        rw [hw2, hw, resolvePrior_fix w n hcase]
      · rw [hp] at hl2
        rw [List.getElem?_eq_none (by omega), List.getElem?_eq_none (by omega)]
    have hout : out2 = out := by
      cases out
      cases out2
      simp only at hp2 hnorm
      simp [hp2, hnorm]
    rw [ho2, hout]
  · have hnil : cloud.points_ = [] := List.length_eq_zero.1 (by omega)
    have hout : out = ⟨[], []⟩ := by
      cases out
      simp only at hp hl
      rw [hnil] at hp hl
      simp only [List.length_nil] at hl
      simp [hp, List.length_eq_zero.1 hl]
    rw [hout]
    exact (EstimateNormals_no_points K ⟨g, fill2⟩ [] ⟨0, 0, 1⟩ search_param).1

theorem neg_Zero : Vector3d.Zero.neg = Vector3d.Zero := by
  simp [Vector3d.neg, Vector3d.Zero]

theorem neg_neg_eq (v : Vector3d) : (v.neg).neg = v := by
  cases v
  simp [Vector3d.neg]

theorem neg_ne_Zero (v : Vector3d) (h : v ≠ Vector3d.Zero) : v.neg ≠ Vector3d.Zero := by
  intro hz
  apply h
  rw [← neg_neg_eq v, hz, neg_Zero]

theorem ne_neg_self (v : Vector3d) (h : v ≠ Vector3d.Zero) : v ≠ v.neg := by
  intro he
  have hpos := dot_self_pos v h
  have h1 : v.dot v = v.dot v.neg := by rw [← he]
  rw [dot_neg_right] at h1
  linarith

/-- For a candidate that is not orthogonal to the reference, the resolved
normal is the same for the candidate and for its negation. -/
theorem resolveRef_neg (r c : Vector3d) (hc : c ≠ Vector3d.Zero) (hd : c.dot r ≠ 0) :
    resolveRef r c.neg = resolveRef r c := by
  unfold resolveRef
  rw [normIsZero_of_ne c hc, normIsZero_of_ne _ (neg_ne_Zero c hc), dot_neg_left]
  by_cases hlt : c.dot r < 0
  · have h2 : ¬ (-(c.dot r) < 0) := by linarith
    simp [hlt, h2]
  · have h2 : -(c.dot r) < 0 := by
      have : 0 < c.dot r := lt_of_le_of_ne (not_lt.1 hlt) (Ne.symm hd)
      linarith
    simp [hlt, h2, neg_neg_eq]

/-- For a candidate orthogonal to the reference neither the candidate nor its
negation is flipped. -/
theorem resolveRef_orthogonal (r c : Vector3d) (hc : c ≠ Vector3d.Zero) (hd : c.dot r = 0) :
    resolveRef r c = c ∧ resolveRef r c.neg = c.neg := by
  unfold resolveRef
  rw [normIsZero_of_ne c hc, normIsZero_of_ne _ (neg_ne_Zero c hc), dot_neg_left, hd]
  simp

theorem resolvePrior_of_ne (old c : Vector3d) (hc : c ≠ Vector3d.Zero) :
    resolvePrior old c = resolveRef old c := by
  simp [resolvePrior, resolveRef, normIsZero_of_ne c hc]

theorem candidate_flipSolver {P : Type} (K : Collaborators P) (c0 : Cumulants)
    (search_param : P) (points : List Vector3d) (i : Nat) :
    candidate (flipSolver K) c0 search_param points i
      = (candidate K c0 search_param points i).map Vector3d.neg := by
  unfold candidate
  cases points[i]? with
  | none => rfl
  | some q =>
    simp only [flipSolver, ComputeNormal]
    split
    · simp [neg_Zero]
    · simp [Option.map_map, Function.comp_def]

/-- C18: orientation resolution removes the sign ambiguity of the solver.  Run
either overload with a solver and with the solver that returns the opposite
vectors.  At every point the two candidates are `c` and its negation; when `c`
is not zero and not orthogonal to the reference (second overload) or to the
prior normal (first overload), both runs write the same normal; when `c` is
not zero and orthogonal, the runs write `c` and its negation, which differ. -/
theorem C18_sign_ambiguity_removed {P : Type} (K : Collaborators P) (U : Indeterminate)
    (cloud : PointCloud) (ref : Vector3d) (search_param : P)
    (hS : SearchInRange K search_param cloud.points_) :
    (∃ out out', EstimateNormalsRef K U cloud ref search_param = some (true, out) ∧
      EstimateNormalsRef (flipSolver K) U cloud ref search_param = some (true, out') ∧
      ∀ i, i < cloud.points_.length →
        ∃ c, candidate K (U.cumulants0 i) search_param cloud.points_ i = some c ∧
          candidate (flipSolver K) (U.cumulants0 i) search_param cloud.points_ i
            = some c.neg ∧
          (c ≠ Vector3d.Zero → c.dot ref ≠ 0 → out.normals_[i]? = out'.normals_[i]?) ∧
          (c ≠ Vector3d.Zero → c.dot ref = 0 →
            out.normals_[i]? = some c ∧ out'.normals_[i]? = some c.neg ∧ c ≠ c.neg)) ∧
    (cloud.HasNormals = true →
      ∃ out out', EstimateNormals K U cloud search_param = some (true, out) ∧
        EstimateNormals (flipSolver K) U cloud search_param = some (true, out') ∧
        ∀ i, i < cloud.points_.length →
          ∃ c r, candidate K (U.cumulants0 i) search_param cloud.points_ i = some c ∧
            candidate (flipSolver K) (U.cumulants0 i) search_param cloud.points_ i
              = some c.neg ∧
            cloud.normals_[i]? = some r ∧
            (c ≠ Vector3d.Zero → c.dot r ≠ 0 → out.normals_[i]? = out'.normals_[i]?) ∧
            (c ≠ Vector3d.Zero → c.dot r = 0 →
              out.normals_[i]? = some c ∧ out'.normals_[i]? = some c.neg ∧ c ≠ c.neg)) := by
  have hS' : SearchInRange (flipSolver K) search_param cloud.points_ := hS
  constructor
  · obtain ⟨out, ho, -, -, h⟩ := EstimateNormalsRef_spec K U cloud ref search_param hS
    obtain ⟨out', ho', -, -, h'⟩ :=
      EstimateNormalsRef_spec (flipSolver K) U cloud ref search_param hS'
    refine ⟨out, out', ho, ho', fun i hi => ?_⟩
    obtain ⟨c, hc, hw⟩ := h i hi
    obtain ⟨c', hc', hw'⟩ := h' i hi
    have hflip : candidate (flipSolver K) (U.cumulants0 i) search_param cloud.points_ i
        = some c.neg := by
      rw [candidate_flipSolver, hc]; rfl
    rw [hflip] at hc'
    cases hc'
    refine ⟨c, hc, hflip, ?_, ?_⟩
    · intro hne hd
      rw [hw, hw', resolveRef_neg ref c hne hd]
    · intro hne hd
      obtain ⟨h1, h2⟩ := resolveRef_orthogonal ref c hne hd
      exact ⟨by rw [hw, h1], by rw [hw', h2], ne_neg_self c hne⟩
  · intro hN
    obtain ⟨out, ho, -, -, h⟩ := EstimateNormals_spec_prior K U cloud search_param hN hS
    obtain ⟨out', ho', -, -, h'⟩ :=
      EstimateNormals_spec_prior (flipSolver K) U cloud search_param hN hS'
    refine ⟨out, out', ho, ho', fun i hi => ?_⟩
    obtain ⟨c, r, hc, hr, hw⟩ := h i hi
    obtain ⟨c', r', hc', hr', hw'⟩ := h' i hi
    have hflip : candidate (flipSolver K) (U.cumulants0 i) search_param cloud.points_ i
        = some c.neg := by
      rw [candidate_flipSolver, hc]; rfl
    rw [hflip] at hc'
    cases hc'
    rw [hr] at hr'
    cases hr'
    refine ⟨c, r, hc, hflip, hr, ?_, ?_⟩
    · intro hne hd
      rw [hw, hw', resolvePrior_of_ne r c hne, resolvePrior_of_ne r _ (neg_ne_Zero c hne),
        resolveRef_neg r c hne hd]
    · intro hne hd
      obtain ⟨h1, h2⟩ := resolveRef_orthogonal r c hne hd
      refine ⟨?_, ?_, ne_neg_self c hne⟩
      · rw [hw, resolvePrior_of_ne r c hne, h1]
      · rw [hw', resolvePrior_of_ne r _ (neg_ne_Zero c hne), h2]

/-- C18 at a concrete input: the two-point cloud, all points as neighbours,
solver vector `(0, 1, 0)` against solver vector `(0, -1, 0)`, reference
`(0, -1, 0)`. -/
theorem C18_sign_ambiguity_witness :
    ∃ out out', EstimateNormalsRef allPointsSearch zeroIndeterminate twoPointCloud
        ⟨0, -1, 0⟩ () = some (true, out) ∧
      EstimateNormalsRef (flipSolver allPointsSearch) zeroIndeterminate twoPointCloud
        ⟨0, -1, 0⟩ () = some (true, out') ∧
      ∀ i, i < twoPointCloud.points_.length →
        ∃ c, candidate allPointsSearch (zeroIndeterminate.cumulants0 i) ()
            twoPointCloud.points_ i = some c ∧
          candidate (flipSolver allPointsSearch) (zeroIndeterminate.cumulants0 i) ()
            twoPointCloud.points_ i = some c.neg ∧
          (c ≠ Vector3d.Zero → c.dot ⟨0, -1, 0⟩ ≠ 0 →
            out.normals_[i]? = out'.normals_[i]?) ∧
          (c ≠ Vector3d.Zero → c.dot ⟨0, -1, 0⟩ = 0 →
            out.normals_[i]? = some c ∧ out'.normals_[i]? = some c.neg ∧ c ≠ c.neg) :=
  (C18_sign_ambiguity_removed allPointsSearch zeroIndeterminate twoPointCloud ⟨0, -1, 0⟩ ()
    (allPointsSearch_inRange _)).1

end three
